import Mathlib

/-!
Verification development for the priority-based stream network simulator
(priority_stream_simulator.py and src/switch/preemptive_switch.py).

Shallow embedding conventions:
* Simulation time (Python floats holding seconds) is modelled as the
  rationals, with all arithmetic exact.
* Python objects referenced from several places (Message, Link) live in
  arenas (lists indexed by id); mutation is modelled as functional update
  of the arena.
* Event-handler closures are defunctionalised into an inductive action
  type; the fields a Python lambda captures by value become payloads of
  the action, while attributes the lambda reads late (such as
  link.busy_until) are re-read from the state at dispatch time.
* heapq.heappush / heappop are modelled as list insertion plus extraction
  of the minimum under the Event dataclass ordering (time, then the
  insertion counter stored in the priority field), which is exactly the
  observable behaviour of a binary min-heap whose keys are pairwise
  distinct.
-/

/-- Truncation toward zero: the behaviour of Python's int() applied to a
real value, here on rationals. Agrees with the floor on nonnegative
arguments. -/
def pyInt (q : ℚ) : ℤ :=
if 0 ≤ q then ⌊q⌋ else ⌈q⌉

namespace PrioritySim

/-- Embeds the Event dataclass: ordering is by (time, priority) where the
priority field receives Network.event_counter at scheduling time, and the
action/description fields do not participate in comparisons. The action
type is a parameter because the basic and the preemptive model
defunctionalise their handler closures differently. -/
structure Ev (α : Type) where
time : ℚ
seq : ℕ
action : α
deriving DecidableEq

/-- Boolean lexicographic order on events by (time, seq): the dataclass
order=True comparison on (time, priority). -/
def Ev.le {α : Type} (e f : Ev α) : Bool :=
decide (e.time < f.time) || (decide (e.time = f.time) && decide (e.seq ≤ f.seq))

/-- Extraction of the minimum event under Ev.le together with the
remaining events: the observable behaviour of heapq.heappop on the event
heap. -/
def popMin {α : Type} : List (Ev α) → Option (Ev α × List (Ev α))
| [] => none
| e :: es =>
  match popMin es with
  | none => some (e, es)
  | some (m, rest) => if Ev.le e m then some (e, es) else some (m, e :: rest)

/-- Embeds the Message dataclass. Messages live in an arena indexed by
msg_id; the sinks and queues hold ids where Python holds references. -/
structure Message where
msg_id : ℕ
stream_id : ℕ
seq_num : ℕ
priority : ℕ
src_node : String
dst_node : String
size_bytes : ℕ
creation_time : ℚ
transmission_start_time : Option ℚ := none
arrival_time : Option ℚ := none
dropped : Bool := false
drop_reason : String := ""
deriving DecidableEq

/-- Embeds Message.get_end_to_end_delay. -/
def Message.get_end_to_end_delay (m : Message) : Option ℚ :=
if m.arrival_time ≠ none ∧ m.dropped = false then
  (m.arrival_time.getD 0) - m.creation_time
else
  none

/-- Embeds the Link class; busy_until is the only mutable field. -/
structure Link where
name : String
bandwidth_bps : ℚ
delay_sec : ℚ
busy_until : ℚ := 0
deriving DecidableEq

/-- Embeds Link.__init__, converting Mbps to bps and ms to seconds. -/
def Link.init (name : String) (bandwidth_mbps delay_ms : ℚ) : Link :=
{ name := name, bandwidth_bps := bandwidth_mbps * 1000000,
  delay_sec := delay_ms / 1000, busy_until := 0 }

/-- Embeds Link.get_transmission_time. -/
def Link.get_transmission_time (l : Link) (size_bytes : ℕ) : ℚ :=
(size_bytes * 8 : ℚ) / l.bandwidth_bps

/-- Embeds Link.is_busy. -/
def Link.is_busy (l : Link) (current_time : ℚ) : Bool :=
decide (current_time < l.busy_until)

/-- Embeds Link.start_transmission: returns the updated link and the
arrival time at the other end. -/
def Link.start_transmission (l : Link) (current_time : ℚ) (size_bytes : ℕ) :
    Link × ℚ :=
let start_time := max current_time l.busy_until
let transmission_time := l.get_transmission_time size_bytes
let busy_until := start_time + transmission_time
({ l with busy_until := busy_until }, busy_until + l.delay_sec)

/-- Embeds the PriorityQueue class: eight FIFO deques indexed by priority
(entries are (msg_id, output_port)) plus the cached total_size counter. -/
structure PriorityQueue where
queues : List (List (ℕ × String))
total_size : ℕ
deriving DecidableEq

/-- Embeds PriorityQueue.__init__: eight empty queues. -/
def PriorityQueue.init : PriorityQueue :=
{ queues := List.replicate 8 [], total_size := 0 }

/-- Embeds PriorityQueue.enqueue: append to queues[message.priority]. -/
def PriorityQueue.enqueue (pq : PriorityQueue) (mid priority : ℕ)
    (output_port : String) : PriorityQueue :=
{ queues := pq.queues.set priority ((pq.queues.getD priority []) ++ [(mid, output_port)]),
  total_size := pq.total_size + 1 }

/-- The scan of PriorityQueue.dequeue over a list of priorities: pop the
front (popleft) of the first non-empty queue. -/
def PriorityQueue.dequeueAux (pq : PriorityQueue) :
    List ℕ → Option ((ℕ × String) × PriorityQueue)
| [] => none
| p :: ps =>
  match pq.queues.getD p [] with
  | [] => pq.dequeueAux ps
  | x :: xs => some (x, { queues := pq.queues.set p xs, total_size := pq.total_size - 1 })

/-- Embeds PriorityQueue.dequeue: scan priorities 7 down to 0. -/
def PriorityQueue.dequeue (pq : PriorityQueue) :
    Option ((ℕ × String) × PriorityQueue) :=
pq.dequeueAux [7, 6, 5, 4, 3, 2, 1, 0]

/-- The scan of PriorityQueue.get_lowest_priority_message: the [-1]
element (the last, most recently appended) of the first non-empty queue. -/
def PriorityQueue.getLowestAux (pq : PriorityQueue) :
    List ℕ → Option (ℕ × ℕ × String)
| [] => none
| p :: ps =>
  match (pq.queues.getD p []).getLast? with
  | none => pq.getLowestAux ps
  | some (mid, port) => some (p, mid, port)

/-- Embeds PriorityQueue.get_lowest_priority_message: scan 0 up to 7 and
return, without removing, the last element of the first non-empty queue. -/
def PriorityQueue.get_lowest_priority_message (pq : PriorityQueue) :
    Option (ℕ × ℕ × String) :=
pq.getLowestAux [0, 1, 2, 3, 4, 5, 6, 7]

/-- The scan of PriorityQueue.drop_lowest_priority_message: pop() (remove
the last element) of the first non-empty queue. -/
def PriorityQueue.dropLowestAux (pq : PriorityQueue) :
    List ℕ → Option (ℕ × PriorityQueue)
| [] => none
| p :: ps =>
  match (pq.queues.getD p []).getLast? with
  | none => pq.dropLowestAux ps
  | some (mid, _) =>
    some (mid, { queues := pq.queues.set p (pq.queues.getD p []).dropLast,
                 total_size := pq.total_size - 1 })

/-- Embeds PriorityQueue.drop_lowest_priority_message: scan 0 up to 7,
remove and return the last element of the first non-empty queue. -/
def PriorityQueue.drop_lowest_priority_message (pq : PriorityQueue) :
    Option (ℕ × PriorityQueue) :=
pq.dropLowestAux [0, 1, 2, 3, 4, 5, 6, 7]

/-- Embeds PriorityQueue.is_empty (the cached counter is consulted, as in
the source). -/
def PriorityQueue.is_empty (pq : PriorityQueue) : Bool :=
decide (pq.total_size = 0)

/-- Functional update of an association list (the embedding of assignment
to a Python dict / defaultdict entry). -/
def assocSet {β : Type} : List (ℕ × β) → ℕ → β → List (ℕ × β)
| [], k, v => [(k, v)]
| (k', v') :: rest, k, v =>
  if k' = k then (k, v) :: rest else (k', v') :: assocSet rest k v

/-- Lookup with default in an association list (defaultdict read). -/
def assocGetD {β : Type} (l : List (ℕ × β)) (k : ℕ) (d : β) : β :=
(List.lookup k l).getD d

/-- Embeds the Stream dataclass. -/
structure Stream where
stream_id : ℕ
priority : ℕ
src_node : String
dst_node : String
message_interval_sec : ℚ
message_size_bytes : ℕ
description : String := ""
deriving DecidableEq

/-- Embeds the Switch class state (basic, non-preemptive switch).
forwarding_table maps dst_node to output_port; output_links maps a port
name to an index into the network's link arena (the embedding of the
Python reference to a Link object). -/
structure Switch where
name : String
max_queue_size : Option ℕ := none
priority_queue : PriorityQueue := PriorityQueue.init
forwarding_table : List (String × String) := []
output_links : List (String × ℕ) := []
is_transmitting : Bool := false
messages_received : ℕ := 0
messages_forwarded : ℕ := 0
messages_dropped : ℕ := 0
drops_by_priority : List (ℕ × ℕ) := []
deriving DecidableEq

/-- Embeds the Node class state. output_link is an index into the link
arena; streams and stream_seq_nums are keyed by stream_id. -/
structure Node where
name : String
output_link : Option ℕ := none
next_hop : Option String := none
streams : List (ℕ × Stream) := []
stream_seq_nums : List (ℕ × ℕ) := []
messages_sent : ℕ := 0
messages_received : List ℕ := []
deriving DecidableEq

/-- Defunctionalised event actions of the basic simulator.
generate embeds the lambda closing over (stream_id, next_time) in
Node.generate_message and Node.add_stream; deliver embeds the lambda
closing over (message, destination); forward_next embeds the lambda in
Switch.forward_next_message, which captures the switch (here its index)
and the link whose busy_until it re-reads at call time (here the link's
arena index). -/
inductive Action where
| generate (node : ℕ) (stream_id : ℕ) (t : ℚ)
| deliver (msg_id : ℕ) (destination : String)
| forward_next (switch : ℕ) (link : ℕ)
deriving DecidableEq

/-- Embeds the Network class state: arenas for nodes, switches, links and
messages, the event queue with its insertion counter, the message-id
counter and the two result sinks (plus the per-stream completed index). -/
structure Net where
sim_duration : ℚ
current_time : ℚ := 0
event_queue : List (Ev Action) := []
event_counter : ℕ := 0
message_id_counter : ℕ := 0
nodes : List Node := []
switches : List Switch := []
links : List Link := []
messages : List Message := []
completed_messages : List ℕ := []
dropped_messages : List ℕ := []
completed_by_stream : List (ℕ × List ℕ) := []
deriving DecidableEq

/-- Embeds Network.schedule_event: wrap the action in an Event whose
priority field is the running event_counter and push it on the heap. The
Python method has no return statement, so a caller binding its result
receives None; this is captured by the Empty handle type of the
preemptive model below. -/
def Network.schedule_event (s : Net) (time : ℚ) (action : Action) : Net :=
{ s with event_queue := ⟨time, s.event_counter, action⟩ :: s.event_queue,
         event_counter := s.event_counter + 1 }

/-- Embeds Network.track_dropped_message. -/
def Network.track_dropped_message (s : Net) (mid : ℕ) : Net :=
{ s with dropped_messages := s.dropped_messages ++ [mid] }

/-- Embeds Switch.forward_next_message for the basic switch, acting on
the switch at index i of the network's switch arena. The two scheduled
events correspond to the delivery lambda and the next-forwarding lambda;
the latter re-reads link.busy_until at dispatch, hence the action stores
the link index. -/
def Switch.forward_next_message (s : Net) (i : ℕ) (current_time : ℚ) : Net :=
match s.switches.get? i with
| none => s
| some sw =>
  if sw.priority_queue.is_empty then
    { s with switches := s.switches.set i { sw with is_transmitting := false } }
  else
    let sw := { sw with is_transmitting := true }
    match sw.priority_queue.dequeue with
    | none => { s with switches := s.switches.set i { sw with is_transmitting := false } }
    | some ((mid, output_port), pq') =>
      let sw := { sw with priority_queue := pq' }
      match List.lookup output_port sw.output_links with
      | none => { s with switches := s.switches.set i { sw with is_transmitting := false } }
      | some linkId =>
        match s.links.get? linkId, s.messages.get? mid with
        | some link, some message =>
          let r := link.start_transmission current_time message.size_bytes
          let sw := { sw with messages_forwarded := sw.messages_forwarded + 1 }
          let s := { s with switches := s.switches.set i sw,
                            links := s.links.set linkId r.1 }
          let s := Network.schedule_event s r.2 (.deliver mid output_port)
          Network.schedule_event s r.1.busy_until (.forward_next i linkId)
        | _, _ => { s with switches := s.switches.set i sw }

/-- The tail of Switch.receive_message after the capacity check: enqueue
the message on the switch at index i and, when the switch is idle,
immediately run the forwarding loop (lines 321 to 326 of the source). -/
def Switch.enqueue_and_forward (s : Net) (i mid priority : ℕ)
    (output_port : String) (current_time : ℚ) : Net :=
match s.switches.get? i with
| none => s
| some sw =>
  let sw := { sw with priority_queue := sw.priority_queue.enqueue mid priority output_port }
  let s := { s with switches := s.switches.set i sw }
  if sw.is_transmitting then s else Switch.forward_next_message s i current_time

/-- Embeds Switch.receive_message for the basic switch: forwarding-table
lookup with the No-forwarding-entry drop, the priority-aware capacity
check when max_queue_size is set, then enqueue and the idle-forwarding
kick. -/
def Switch.receive_message (s : Net) (i mid : ℕ) (current_time : ℚ) : Net :=
match s.switches.get? i, s.messages.get? mid with
| some sw, some message =>
  let sw := { sw with messages_received := sw.messages_received + 1 }
  let s := { s with switches := s.switches.set i sw }
  match List.lookup message.dst_node sw.forwarding_table with
  | none =>
    let message := { message with dropped := true, drop_reason := "No forwarding entry" }
    let sw := { sw with messages_dropped := sw.messages_dropped + 1 }
    let s := { s with messages := s.messages.set mid message,
                      switches := s.switches.set i sw }
    Network.track_dropped_message s mid
  | some output_port =>
    match sw.max_queue_size with
    | some mqs =>
      if sw.priority_queue.total_size ≥ mqs then
        match sw.priority_queue.get_lowest_priority_message with
        | some (lowest_priority, _, _) =>
          if message.priority > lowest_priority then
            match sw.priority_queue.drop_lowest_priority_message with
            | some (dropped_mid, pq') =>
              match s.messages.get? dropped_mid with
              | some dm =>
                let dm := { dm with dropped := true,
                                    drop_reason := "Preempted by higher priority" }
                let dbp := assocSet sw.drops_by_priority dm.priority (assocGetD sw.drops_by_priority dm.priority 0 + 1)
                let sw := { sw with priority_queue := pq',
                                    messages_dropped := sw.messages_dropped + 1,
                                    drops_by_priority := dbp }
                let s := { s with messages := s.messages.set dropped_mid dm,
                                  switches := s.switches.set i sw }
                let s := Network.track_dropped_message s dropped_mid
                Switch.enqueue_and_forward s i mid message.priority output_port current_time
              | none =>
                let sw := { sw with priority_queue := pq',
                                    messages_dropped := sw.messages_dropped + 1 }
                let s := { s with switches := s.switches.set i sw }
                let s := Network.track_dropped_message s dropped_mid
                Switch.enqueue_and_forward s i mid message.priority output_port current_time
            | none =>
              Switch.enqueue_and_forward s i mid message.priority output_port current_time
          else
            let message := { message with dropped := true,
                                          drop_reason := "Buffer overflow (tail drop)" }
            let dbp := assocSet sw.drops_by_priority message.priority (assocGetD sw.drops_by_priority message.priority 0 + 1)
            let sw := { sw with messages_dropped := sw.messages_dropped + 1,
                                drops_by_priority := dbp }
            let s := { s with messages := s.messages.set mid message,
                              switches := s.switches.set i sw }
            Network.track_dropped_message s mid
        | none =>
          let message := { message with dropped := true, drop_reason := "Buffer overflow" }
          let dbp := assocSet sw.drops_by_priority message.priority (assocGetD sw.drops_by_priority message.priority 0 + 1)
          let sw := { sw with messages_dropped := sw.messages_dropped + 1,
                              drops_by_priority := dbp }
          let s := { s with messages := s.messages.set mid message,
                            switches := s.switches.set i sw }
          Network.track_dropped_message s mid
      else
        Switch.enqueue_and_forward s i mid message.priority output_port current_time
    | none =>
      Switch.enqueue_and_forward s i mid message.priority output_port current_time
| _, _ => s

/-- Embeds Node.receive_message: stamp the arrival time on the message and
append it to the node's receive logs. The per-stream log of the node is
kept implicitly through the network's completed_by_stream index. -/
def Node.receive_message (s : Net) (ni mid : ℕ) (current_time : ℚ) : Net :=
match s.nodes.get? ni, s.messages.get? mid with
| some node, some message =>
  let message := { message with arrival_time := some current_time }
  let node := { node with messages_received := node.messages_received ++ [mid] }
  { s with messages := s.messages.set mid message, nodes := s.nodes.set ni node }
| _, _ => s

/-- Embeds Network.deliver_message: dispatch on the destination name,
first among switches, then among nodes (recording completion), else the
message is only logged as unknown and lost. -/
def Network.deliver_message (s : Net) (mid : ℕ) (destination : String) : Net :=
match s.switches.findIdx? (fun sw => sw.name == destination) with
| some i => Switch.receive_message s i mid s.current_time
| none =>
  match s.nodes.findIdx? (fun n => n.name == destination) with
  | some ni =>
    match s.messages.get? mid with
    | some message =>
      let s := Node.receive_message s ni mid s.current_time
      let cbs := assocSet s.completed_by_stream message.stream_id (assocGetD s.completed_by_stream message.stream_id [] ++ [mid])
      { s with completed_messages := s.completed_messages ++ [mid],
               completed_by_stream := cbs }
    | none => s
  | none => s

/-- Embeds Node.generate_message for the node at index ni: allocate the
next message id, build the message, start transmission on the output
link, schedule delivery at the next hop (or, lacking one, at the
stream's destination), and schedule the next generation when it falls
inside the simulation duration. -/
def Node.generate_message (s : Net) (ni stream_id : ℕ) (current_time : ℚ) : Net :=
match s.nodes.get? ni with
| none => s
| some node =>
  match node.output_link with
  | none => s
  | some linkId =>
    match List.lookup stream_id node.streams with
    | none => s
    | some stream =>
      match s.links.get? linkId with
      | none => s
      | some link =>
        let seq_num := assocGetD node.stream_seq_nums stream_id 0
        let mid := s.message_id_counter
        let message : Message :=
          { msg_id := mid, stream_id := stream_id, seq_num := seq_num,
            priority := stream.priority, src_node := node.name,
            dst_node := stream.dst_node, size_bytes := stream.message_size_bytes,
            creation_time := current_time }
        let s := { s with message_id_counter := mid + 1,
                          messages := s.messages ++ [message] }
        let node := { node with
          stream_seq_nums := assocSet node.stream_seq_nums stream_id (seq_num + 1),
          messages_sent := node.messages_sent + 1 }
        let r := link.start_transmission current_time message.size_bytes
        let tst := max current_time (r.1.busy_until - link.get_transmission_time message.size_bytes)
        let message := { message with transmission_start_time := some tst }
        let s := { s with messages := s.messages.set mid message,
                          nodes := s.nodes.set ni node,
                          links := s.links.set linkId r.1 }
        let destination := node.next_hop.getD stream.dst_node
        let s := Network.schedule_event s r.2 (.deliver mid destination)
        let next_time := current_time + stream.message_interval_sec
        if next_time < s.sim_duration then
          Network.schedule_event s next_time (.generate ni stream_id next_time)
        else s

/-- Embeds the dispatch of a popped event's action (calling the stored
handler closure). The forward_next closure re-reads link.busy_until at
call time, embedded here by reading the link arena at dispatch. -/
def Network.dispatch (s : Net) : Action → Net
| .generate ni sid t => Node.generate_message s ni sid t
| .deliver mid dest => Network.deliver_message s mid dest
| .forward_next i linkId =>
  let t := match s.links.get? linkId with
           | some l => l.busy_until
           | none => 0
  Switch.forward_next_message s i t

/-- Embeds Network.run, with fuel bounding the number of loop iterations
(the Python loop runs until the queue empties or the horizon is passed).
Each iteration: check queue non-empty and current_time below
sim_duration, pop the minimum event, stop if its time exceeds
sim_duration (the event is discarded), else advance current_time and
execute the action. -/
def Network.run : ℕ → Net → Net
| 0, s => s
| fuel + 1, s =>
  if s.event_queue ≠ [] ∧ s.current_time < s.sim_duration then
    match popMin s.event_queue with
    | none => s
    | some (e, rest) =>
      let s' := { s with event_queue := rest }
      if e.time > s'.sim_duration then s'
      else Network.run fuel (Network.dispatch { s' with current_time := e.time } e.action)
  else s

/-!
Preemptive model (src/switch/preemptive_switch.py). The PreemptiveSwitch
overrides receive_message and forward_next_message and adds the
preempt/resume/complete/slot machinery. Its event handles come from
Network.schedule_event, which has no return statement: the bound value is
always None. The handle type is therefore Empty wrapped in Option — no
handle value exists, which is exactly the situation in the source, where
Network also defines no cancel_event method.
-/

/-- The current_transmission dict of PreemptiveSwitch (message references
become arena indices; the two stored event handles are the None returned
by Network.schedule_event). -/
structure CurrentTransmission where
msg_id : ℕ
output_port : String
link : ℕ
start_time : ℚ
bytes_transmitted : ℤ
bytes_remaining : ℤ
completion_time : ℚ
completion_event : Option Empty
slot_event : Option Empty
resumed : Bool := false
deriving DecidableEq

/-- An entry of the paused_transmissions deque of PreemptiveSwitch. -/
structure PausedTransmission where
msg_id : ℕ
output_port : String
link : ℕ
bytes_transmitted : ℤ
bytes_remaining : ℤ
paused_at : ℚ
deriving DecidableEq

/-- Embeds the PreemptiveSwitch state: the base Switch fields plus the
preemption configuration, the current and paused transmissions and the
preemption statistics. -/
structure PSwitch where
name : String
max_queue_size : Option ℕ := none
priority_queue : PriorityQueue := PriorityQueue.init
forwarding_table : List (String × String) := []
output_links : List (String × ℕ) := []
is_transmitting : Bool := false
messages_received : ℕ := 0
messages_forwarded : ℕ := 0
messages_dropped : ℕ := 0
drops_by_priority : List (ℕ × ℕ) := []
preemption_enabled : Bool := true
min_preemption_interval : ℚ := 1 / 1000
last_preemption_time : ℚ := 0
current_transmission : Option CurrentTransmission := none
paused_transmissions : List PausedTransmission := []
preemptions_count : ℕ := 0
preemptions_by_priority : List (ℕ × ℕ) := []
total_preemption_overhead_ms : ℚ := 0
deriving DecidableEq

/-- Defunctionalised event actions of the preemptive model: the
completion lambda captures (message, output_port, completion_time) by
value, the slot lambda captures the link whose busy_until it re-reads at
call time; both capture self (the switch index). -/
inductive PAction where
| complete (sw : ℕ) (msg_id : ℕ) (output_port : String) (completion_time : ℚ)
| slot (sw : ℕ) (link : ℕ)
deriving DecidableEq

/-- Network state for the preemptive model: switches are PreemptiveSwitch
instances; destination nodes are kept by name (their receive_message only
stamps arrival_time and lets the network record completion). -/
structure PNet where
current_time : ℚ := 0
event_queue : List (Ev PAction) := []
event_counter : ℕ := 0
switches : List PSwitch := []
node_names : List String := []
links : List Link := []
messages : List Message := []
completed_messages : List ℕ := []
dropped_messages : List ℕ := []
deriving DecidableEq

/-- Embeds Network.schedule_event as called from PreemptiveSwitch with
its result bound: the method pushes the event and, having no return
statement, yields None — hence the second component is always none, of
the uninhabited handle type. -/
def PNet.schedule_event (s : PNet) (time : ℚ) (action : PAction) :
    PNet × Option Empty :=
({ s with event_queue := ⟨time, s.event_counter, action⟩ :: s.event_queue,
          event_counter := s.event_counter + 1 }, none)

/-- Embeds the guarded cancellation in _preempt_current_transmission:
if the stored handle is not None, call self.network.cancel_event on it.
The branch body is uninhabited — no handle value ever exists (and the
Network class defines no cancel_event method), so the cancellation never
removes anything from the event queue. -/
def PNet.cancel_if_present (s : PNet) (h : Option Empty) : PNet :=
match h with
| some e => e.elim
| none => s

/-- Embeds Network.track_dropped_message for the preemptive model. -/
def PNet.track_dropped_message (s : PNet) (mid : ℕ) : PNet :=
{ s with dropped_messages := s.dropped_messages ++ [mid] }

/-- Embeds _preempt_current_transmission: cancel the (absent) handles,
compute transmitted and remaining bytes with int() truncation, reset the
link's busy_until to now, append the paused entry and clear the current
transmission. -/
def PSwitch.preempt_current_transmission (s : PNet) (i : ℕ)
    (current_time : ℚ) : PNet :=
match s.switches.get? i with
| none => s
| some sw =>
  match sw.current_transmission with
  | none => s
  | some tr =>
    match s.messages.get? tr.msg_id, s.links.get? tr.link with
    | some message, some link =>
      let s := s.cancel_if_present tr.completion_event
      let s := s.cancel_if_present tr.slot_event
      let time_elapsed := current_time - tr.start_time
      let transmission_rate := link.bandwidth_bps / 8
      let bytes_transmitted := pyInt (time_elapsed * transmission_rate)
      let bytes_transmitted := min bytes_transmitted (message.size_bytes : ℤ)
      let bytes_remaining := (message.size_bytes : ℤ) - bytes_transmitted
      let link := { link with busy_until := current_time }
      let entry : PausedTransmission :=
        { msg_id := tr.msg_id, output_port := tr.output_port,
          link := tr.link, bytes_transmitted := bytes_transmitted,
          bytes_remaining := bytes_remaining, paused_at := current_time }
      let pbp := assocSet sw.preemptions_by_priority message.priority (assocGetD sw.preemptions_by_priority message.priority 0 + 1)
      let sw := { sw with
        paused_transmissions := sw.paused_transmissions ++ [entry],
        preemptions_count := sw.preemptions_count + 1,
        preemptions_by_priority := pbp,
        current_transmission := none,
        is_transmitting := false }
      { s with switches := s.switches.set i sw, links := s.links.set tr.link link }
    | _, _ => s

/-- The preemption step of PreemptiveSwitch.receive_message (lines 109 to
110 of the source): invoke _preempt_current_transmission, then assign
last_preemption_time = current_time on the switch. -/
def PSwitch.preempt_and_stamp (s : PNet) (i : ℕ) (current_time : ℚ) : PNet :=
let s := PSwitch.preempt_current_transmission s i current_time
match s.switches.get? i with
| some sw2 =>
  { s with switches := s.switches.set i { sw2 with last_preemption_time := current_time } }
| none => s

/-- Embeds _start_transmission: fresh transmission of a dequeued message,
scheduling the completion and slot events and recording their (None)
handles in current_transmission. -/
def PSwitch.start_transmission (s : PNet) (i mid : ℕ) (output_port : String)
    (linkId : ℕ) (current_time : ℚ) : PNet :=
match s.switches.get? i, s.messages.get? mid, s.links.get? linkId with
| some sw, some message, some link =>
  let transmission_time := link.get_transmission_time message.size_bytes
  let start_time := max current_time link.busy_until
  let completion_time := start_time + transmission_time + link.delay_sec
  let link := { link with busy_until := start_time + transmission_time }
  let s := { s with links := s.links.set linkId link }
  let r1 := s.schedule_event completion_time (.complete i mid output_port completion_time)
  let r2 := r1.1.schedule_event link.busy_until (.slot i linkId)
  let ct : CurrentTransmission :=
    { msg_id := mid, output_port := output_port, link := linkId,
      start_time := start_time, bytes_transmitted := 0,
      bytes_remaining := (message.size_bytes : ℤ),
      completion_time := completion_time,
      completion_event := r1.2, slot_event := r2.2 }
  let sw := { sw with messages_forwarded := sw.messages_forwarded + 1,
                      current_transmission := some ct }
  { r2.1 with switches := r2.1.switches.set i sw }
| _, _, _ => s

/-- Embeds _resume_paused_transmission: pop the front of the (sorted)
paused deque, transmit the remaining bytes, accumulate the preemption
overhead and re-install current_transmission with resumed set. -/
def PSwitch.resume_paused_transmission (s : PNet) (i : ℕ)
    (current_time : ℚ) : PNet :=
match s.switches.get? i with
| none => s
| some sw =>
  match sw.paused_transmissions with
  | [] => s
  | paused :: rest =>
    match s.links.get? paused.link with
    | none => s
    | some link =>
      let transmission_rate := link.bandwidth_bps / 8
      let remaining_time := (paused.bytes_remaining : ℚ) / transmission_rate
      let start_time := max current_time link.busy_until
      let completion_time := start_time + remaining_time + link.delay_sec
      let link := { link with busy_until := start_time + remaining_time }
      let preemption_overhead := current_time - paused.paused_at
      let s := { s with links := s.links.set paused.link link }
      let r1 := s.schedule_event completion_time (.complete i paused.msg_id paused.output_port completion_time)
      let r2 := r1.1.schedule_event link.busy_until (.slot i paused.link)
      let ct : CurrentTransmission :=
        { msg_id := paused.msg_id, output_port := paused.output_port,
          link := paused.link, start_time := start_time,
          bytes_transmitted := paused.bytes_transmitted,
          bytes_remaining := paused.bytes_remaining,
          completion_time := completion_time,
          completion_event := r1.2, slot_event := r2.2, resumed := true }
      let sw := { sw with
        paused_transmissions := rest,
        total_preemption_overhead_ms := sw.total_preemption_overhead_ms + preemption_overhead * 1000,
        is_transmitting := true,
        current_transmission := some ct }
      { r2.1 with switches := r2.1.switches.set i sw }

/-- Stable insertion used to embed sorted(paused_transmissions,
key=priority, reverse=True): an element is placed after every element of
greater or equal key, preserving the original order among equal keys,
which is exactly Python's stable descending sort. -/
def insertByPriorityDesc (key : PausedTransmission → ℕ)
    (x : PausedTransmission) : List PausedTransmission → List PausedTransmission
| [] => [x]
| y :: ys => if key y ≥ key x then y :: insertByPriorityDesc key x ys else x :: y :: ys

/-- The stable descending sort of the paused deque by the priority of the
referenced message (read through the arena, as Python reads it through
the stored object reference). -/
def pausedSortDesc (messages : List Message) (l : List PausedTransmission) :
    List PausedTransmission :=
l.foldl (fun acc x =>
  insertByPriorityDesc (fun p => ((messages.get? p.msg_id).map Message.priority).getD 0) x acc) []

/-- Embeds PreemptiveSwitch.forward_next_message: resume the
highest-priority paused transmission if any (after the stable descending
sort), else dequeue and start a fresh transmission. -/
def PSwitch.forward_next_message (s : PNet) (i : ℕ) (current_time : ℚ) : PNet :=
match s.switches.get? i with
| none => s
| some sw =>
  if sw.paused_transmissions ≠ [] then
    let sorted := pausedSortDesc s.messages sw.paused_transmissions
    let s := { s with switches := s.switches.set i { sw with paused_transmissions := sorted } }
    PSwitch.resume_paused_transmission s i current_time
  else if sw.priority_queue.is_empty then
    { s with switches := s.switches.set i { sw with is_transmitting := false } }
  else
    let sw := { sw with is_transmitting := true }
    match sw.priority_queue.dequeue with
    | none => { s with switches := s.switches.set i { sw with is_transmitting := false } }
    | some ((mid, output_port), pq') =>
      let sw := { sw with priority_queue := pq' }
      match List.lookup output_port sw.output_links with
      | none => { s with switches := s.switches.set i { sw with is_transmitting := false } }
      | some linkId =>
        let s := { s with switches := s.switches.set i sw }
        PSwitch.start_transmission s i mid output_port linkId current_time

/-- The capacity-check, enqueue and idle-forwarding tail of
PreemptiveSwitch.receive_message (lines 112 to 149 of the source, a
verbatim duplicate of the basic switch logic but ending in the preemptive
forward_next_message). -/
def PSwitch.receive_enqueue_phase (s : PNet) (i mid : ℕ)
    (output_port : String) (current_time : ℚ) : PNet :=
match s.switches.get? i, s.messages.get? mid with
| some sw, some message =>
  let enqueue_forward (s : PNet) : PNet :=
    match s.switches.get? i with
    | none => s
    | some sw =>
      let sw := { sw with priority_queue := sw.priority_queue.enqueue mid message.priority output_port }
      let s := { s with switches := s.switches.set i sw }
      if sw.is_transmitting then s else PSwitch.forward_next_message s i current_time
  match sw.max_queue_size with
  | some mqs =>
    if sw.priority_queue.total_size ≥ mqs then
      match sw.priority_queue.get_lowest_priority_message with
      | some (lowest_priority, _, _) =>
        if message.priority > lowest_priority then
          match sw.priority_queue.drop_lowest_priority_message with
          | some (dropped_mid, pq') =>
            match s.messages.get? dropped_mid with
            | some dm =>
              let dm := { dm with dropped := true,
                                  drop_reason := "Preempted by higher priority" }
              let dbp := assocSet sw.drops_by_priority dm.priority (assocGetD sw.drops_by_priority dm.priority 0 + 1)
              let sw := { sw with priority_queue := pq',
                                  messages_dropped := sw.messages_dropped + 1,
                                  drops_by_priority := dbp }
              let s := { s with messages := s.messages.set dropped_mid dm,
                                switches := s.switches.set i sw }
              let s := PNet.track_dropped_message s dropped_mid
              enqueue_forward s
            | none =>
              let sw := { sw with priority_queue := pq',
                                  messages_dropped := sw.messages_dropped + 1 }
              let s := { s with switches := s.switches.set i sw }
              let s := PNet.track_dropped_message s dropped_mid
              enqueue_forward s
          | none => enqueue_forward s
        else
          let message := { message with dropped := true,
                                        drop_reason := "Buffer overflow (tail drop)" }
          let dbp := assocSet sw.drops_by_priority message.priority (assocGetD sw.drops_by_priority message.priority 0 + 1)
          let sw := { sw with messages_dropped := sw.messages_dropped + 1,
                              drops_by_priority := dbp }
          let s := { s with messages := s.messages.set mid message,
                            switches := s.switches.set i sw }
          PNet.track_dropped_message s mid
      | none =>
        let message := { message with dropped := true, drop_reason := "Buffer overflow" }
        let dbp := assocSet sw.drops_by_priority message.priority (assocGetD sw.drops_by_priority message.priority 0 + 1)
        let sw := { sw with messages_dropped := sw.messages_dropped + 1,
                            drops_by_priority := dbp }
        let s := { s with messages := s.messages.set mid message,
                          switches := s.switches.set i sw }
        PNet.track_dropped_message s mid
    else enqueue_forward s
  | none => enqueue_forward s
| _, _ => s

/-- Embeds PreemptiveSwitch.receive_message: forwarding lookup with the
No-forwarding-entry drop, then the preemption trigger (priority
difference at least 2 and cooldown elapsed, checked only when preemption
is enabled and a transmission is current), then the capacity check,
enqueue and idle-forwarding kick. -/
def PSwitch.receive_message (s : PNet) (i mid : ℕ) (current_time : ℚ) : PNet :=
match s.switches.get? i, s.messages.get? mid with
| some sw, some message =>
  let sw := { sw with messages_received := sw.messages_received + 1 }
  let s := { s with switches := s.switches.set i sw }
  match List.lookup message.dst_node sw.forwarding_table with
  | none =>
    let message := { message with dropped := true, drop_reason := "No forwarding entry" }
    let sw := { sw with messages_dropped := sw.messages_dropped + 1 }
    let s := { s with messages := s.messages.set mid message,
                      switches := s.switches.set i sw }
    PNet.track_dropped_message s mid
  | some output_port =>
    let s :=
      if sw.preemption_enabled then
        match sw.current_transmission with
        | some ct =>
          match s.messages.get? ct.msg_id with
          | some current_msg =>
            let time_since_last := current_time - sw.last_preemption_time
            let priority_diff := (message.priority : ℤ) - (current_msg.priority : ℤ)
            if priority_diff ≥ 2 ∧ time_since_last ≥ sw.min_preemption_interval then
              PSwitch.preempt_and_stamp s i current_time
            else s
          | none => s
        | none => s
      else s
    PSwitch.receive_enqueue_phase s i mid output_port current_time
| _, _ => s

/-- Embeds Network.deliver_message in the preemptive model: switch branch
dispatches to PreemptiveSwitch.receive_message; node branch stamps the
arrival time and records completion; unknown destinations are only
logged and the message is lost. -/
def PNet.deliver_message (s : PNet) (mid : ℕ) (destination : String) : PNet :=
match s.switches.findIdx? (fun sw => sw.name == destination) with
| some i => PSwitch.receive_message s i mid s.current_time
| none =>
  if destination ∈ s.node_names then
    let s :=
      match s.messages.get? mid with
      | some m => { s with messages := s.messages.set mid { m with arrival_time := some s.current_time } }
      | none => s
    { s with completed_messages := s.completed_messages ++ [mid] }
  else s

/-- Embeds _complete_transmission: clear current_transmission when it
still references this message (dataclass equality reduces to id equality
since msg_id is unique), then deliver unconditionally. -/
def PSwitch.complete_transmission (s : PNet) (i mid : ℕ)
    (output_port : String) (completion_time : ℚ) : PNet :=
let s :=
  match s.switches.get? i with
  | some sw =>
    match sw.current_transmission with
    | some ct =>
      if ct.msg_id = mid then
        { s with switches := s.switches.set i { sw with current_transmission := none } }
      else s
    | none => s
  | none => s
PNet.deliver_message s mid output_port

/-- Embeds _transmission_slot_available: clear the transmission state and
run the forwarding loop. -/
def PSwitch.transmission_slot_available (s : PNet) (i : ℕ)
    (current_time : ℚ) : PNet :=
match s.switches.get? i with
| none => s
| some sw =>
  let s := { s with switches := s.switches.set i { sw with current_transmission := none, is_transmitting := false } }
  PSwitch.forward_next_message s i current_time

/-- Embeds the dispatch of a popped event's action in the preemptive
model: the completion lambda calls _complete_transmission with its
captured arguments; the slot lambda re-reads link.busy_until at call
time before calling _transmission_slot_available. -/
def PNet.dispatch (s : PNet) : PAction → PNet
| .complete sw mid port ct => PSwitch.complete_transmission s sw mid port ct
| .slot sw linkId =>
  let t := match s.links.get? linkId with
           | some l => l.busy_until
           | none => 0
  PSwitch.transmission_slot_available s sw t

/-- Embeds Network.run driving a network of PreemptiveSwitch instances
(the loop of the base Network class, its horizon passed explicitly since
the scenario states are built directly): pop the minimum event, stop if
its time exceeds the horizon, else advance current_time and execute the
action; fuel bounds the number of iterations. -/
def PNet.run (sim_duration : ℚ) : ℕ → PNet → PNet
| 0, s => s
| fuel + 1, s =>
  if s.event_queue ≠ [] ∧ s.current_time < sim_duration then
    match popMin s.event_queue with
    | none => s
    | some (e, rest) =>
      let s' := { s with event_queue := rest }
      if e.time > sim_duration then s'
      else PNet.run sim_duration fuel (PNet.dispatch { s' with current_time := e.time } e.action)
  else s

/-- Embeds the end_to_end_delay_ms cell written by Network.export_to_csv
for a completed-messages row: the source writes delay * 1000 if delay
else None, so the cell is empty whenever the delay is falsy — None or
exactly zero. -/
def export_row_delay_ms (m : Message) : Option ℚ :=
match m.get_end_to_end_delay with
| none => none
| some d => if d = 0 then none else some (d * 1000)

/-- The end_to_end_delay_ms cell of a dropped-messages row in
Network.export_to_csv: written as None unconditionally. -/
def dropped_row_delay_ms : Option ℚ :=
none

/-!
Concrete scenarios used as counterexamples and witnesses.
-/

/-- A priority queue holding two priority-0 messages, message 10 enqueued
before message 11 on the same port. -/
def pqExC3 : PriorityQueue :=
(PriorityQueue.init.enqueue 10 0 "p").enqueue 11 0 "p"

/-- A stream of 1000-byte messages every 2 seconds from node A to node B. -/
def streamC2 : Stream :=
{ stream_id := 5, priority := 0, src_node := "A", dst_node := "B",
  message_interval_sec := 2, message_size_bytes := 1000 }

/-- Node A with streamC2 attached (state as left by Node.add_stream). -/
def nodeC2A : Node :=
{ name := "A", output_link := some 0, streams := [(5, streamC2)],
  stream_seq_nums := [(5, 0)] }

/-- Plain destination node B. -/
def nodeC2B : Node :=
{ name := "B" }

/-- A 1 Mbps link with 2000 ms propagation delay: a message sent near
time 0 is still in flight at the 1 s horizon. -/
def linkC2 : Link :=
Link.init "AB" 1 2000

/-- One-second simulation of a single A-to-B stream over the slow link,
with the initial generation event scheduled by Node.add_stream already in
the queue. -/
def netC2 : Net :=
{ sim_duration := 1, event_queue := [⟨0, 0, .generate 0 5 0⟩],
  event_counter := 1, nodes := [nodeC2A, nodeC2B], links := [linkC2] }

/-- A message addressed to a destination name registered neither as a
switch nor as a node. -/
def msgC4 : Message :=
{ msg_id := 0, stream_id := 0, seq_num := 0, priority := 3, src_node := "A",
  dst_node := "X", size_bytes := 100, creation_time := 0 }

/-- A network with no switches and no nodes, holding only msgC4. -/
def netC4 : Net :=
{ sim_duration := 1, messages := [msgC4] }

/-- The 100 Mbps, 1 ms link of the preemption scenario (the parameters of
test_preemptive_switch in the source). -/
def linkC1 : Link :=
Link.init "L" 100 1

/-- A low-priority 1,000,000-byte message received at time 0. -/
def mC1a : Message :=
{ msg_id := 0, stream_id := 100, seq_num := 0, priority := 1,
  src_node := "Src", dst_node := "Dst", size_bytes := 1000000,
  creation_time := 0 }

/-- A priority-7 1,000-byte message received at time 0.002, triggering a
preemption of mC1a. -/
def mC1b : Message :=
{ msg_id := 1, stream_id := 200, seq_num := 0, priority := 7,
  src_node := "Src", dst_node := "Dst", size_bytes := 1000,
  creation_time := 1 / 500 }

/-- A preemption-enabled PreemptiveSwitch forwarding destination Dst over
port Dst on link 0. -/
def pswC1 : PSwitch :=
{ name := "SW", forwarding_table := [("Dst", "Dst")], output_links := [("Dst", 0)] }

/-- The preemption scenario network. -/
def pnetC1 : PNet :=
{ switches := [pswC1], node_names := ["Dst"], links := [linkC1],
  messages := [mC1a, mC1b] }

/-- State after the switch receives mC1a at time 0: mC1a in flight with
completion scheduled at 0.081 and the slot event at 0.08. -/
def s1C1 : PNet :=
PSwitch.receive_message pnetC1 0 0 0

/-- State after the switch receives mC1b at time 0.002: the preemption
fired, cancelling nothing, and the resume scheduled a second completion
event for mC1a. -/
def s2C1 : PNet :=
PSwitch.receive_message s1C1 0 1 (1 / 500)

/-- Recogniser for completion events of message 0 in the preemptive
event queue. -/
def isCompletionOfMsg0 (e : Ev PAction) : Bool :=
match e.action with
| .complete _ 0 _ _ => true
| _ => false

/-!
Measures and invariants used to settle the conservation and the event
ordering claims.
-/

/-- Number of entries actually held across the eight queues (the source
additionally caches this as total_size). -/
def pqLen (pq : PriorityQueue) : ℕ :=
(pq.queues.map List.length).sum

/-- Recogniser for delivery events. -/
def Action.isDeliver : Action → Bool
| .deliver _ _ => true
| _ => false

/-- Number of pending delivery events: messages in flight on some link. -/
def liveEvents (s : Net) : ℕ :=
(s.event_queue.filter (fun e => Action.isDeliver e.action)).length

/-- Number of messages sitting in switch queues. -/
def liveQueued (s : Net) : ℕ :=
(s.switches.map (fun sw => pqLen sw.priority_queue)).sum

/-- Accounting measure: messages in a result sink plus messages in
flight plus messages queued at switches. Every generated message is
counted at most once here, so Phi never exceeds the id counter. -/
def Phi (s : Net) : ℕ :=
s.completed_messages.length + s.dropped_messages.length + liveEvents s + liveQueued s

/-- Scheduler invariant: every queued event carries a sequence number
below the running counter, and sequence numbers are pairwise distinct.
Network.schedule_event establishes and preserves it. -/
def SeqInv (s : Net) : Prop :=
(∀ e ∈ s.event_queue, e.seq < s.event_counter) ∧
  s.event_queue.Pairwise (fun a b => a.seq ≠ b.seq)

/-!
Concrete scenario states used to instantiate the preemption and
capacity claims.
-/

/-- A transmission of message 0 started at time 0 on link 0, handles
absent as always. -/
def trC5 : CurrentTransmission :=
{ msg_id := 0, output_port := "p", link := 0, start_time := 0,
  bytes_transmitted := 0, bytes_remaining := 50, completion_time := 1/2,
  completion_event := none, slot_event := none }

/-- The in-flight priority-0 message of the preemption-trigger scenario. -/
def mC5cur : Message :=
{ msg_id := 0, stream_id := 0, seq_num := 0, priority := 0,
  src_node := "A", dst_node := "D", size_bytes := 50, creation_time := 0 }

/-- The arriving priority-7 message of the preemption-trigger scenario. -/
def mC5new : Message :=
{ msg_id := 1, stream_id := 1, seq_num := 0, priority := 7,
  src_node := "A", dst_node := "D", size_bytes := 10, creation_time := 1 }

/-- A 800 bps link (100 bytes per second) busy until 1/2. -/
def linkC5 : Link :=
{ name := "L5", bandwidth_bps := 800, delay_sec := 0, busy_until := 1/2 }

/-- A preemption-enabled switch currently transmitting mC5cur. -/
def pswC5 : PSwitch :=
{ name := "SW5", forwarding_table := [("D", "p")], output_links := [("p", 0)],
  is_transmitting := true, current_transmission := some trC5 }

/-- The preemption-trigger scenario network. -/
def pnetC5 : PNet :=
{ switches := [pswC5], node_names := ["D"], links := [linkC5],
  messages := [mC5cur, mC5new] }

/-- A priority queue holding the single priority-0 message 0. -/
def pqC7 : PriorityQueue :=
PriorityQueue.init.enqueue 0 0 "p"

/-- The queued priority-0 message of the full-queue scenario. -/
def mC7q : Message :=
{ msg_id := 0, stream_id := 0, seq_num := 0, priority := 0,
  src_node := "A", dst_node := "D", size_bytes := 10, creation_time := 0 }

/-- The arriving priority-5 message of the full-queue scenario. -/
def mC7n : Message :=
{ msg_id := 1, stream_id := 1, seq_num := 0, priority := 5,
  src_node := "A", dst_node := "D", size_bytes := 10, creation_time := 1 }

/-- A busy basic switch whose one-slot queue is full. -/
def swC7 : Switch :=
{ name := "S7", max_queue_size := some 1, priority_queue := pqC7,
  forwarding_table := [("D", "p")], output_links := [("p", 0)],
  is_transmitting := true }

/-- The full-queue scenario network. -/
def netC7 : Net :=
{ sim_duration := 10, switches := [swC7], links := [Link.init "L7" 100 1],
  messages := [mC7q, mC7n] }

/-!
Lemmas about the event ordering and the extraction of the minimum.
-/

theorem Ev.le_refl {α : Type} (e : Ev α) : Ev.le e e = true := by
simp [Ev.le]

theorem Ev.le_trans {α : Type} {e f g : Ev α} (h1 : Ev.le e f = true)
    (h2 : Ev.le f g = true) : Ev.le e g = true := by
simp only [Ev.le, Bool.or_eq_true, Bool.and_eq_true, decide_eq_true_eq] at *
rcases h1 with h1 | ⟨h1, h1'⟩ <;> rcases h2 with h2 | ⟨h2, h2'⟩
· exact Or.inl (lt_trans h1 h2)
· exact Or.inl (h2 ▸ h1)
· exact Or.inl (h1 ▸ h2)
· exact Or.inr ⟨h1.trans h2, Nat.le_trans h1' h2'⟩

theorem Ev.le_of_not_le {α : Type} {e f : Ev α} (h : ¬ Ev.le e f = true) :
    Ev.le f e = true := by
simp only [Ev.le, Bool.or_eq_true, Bool.and_eq_true, decide_eq_true_eq,
  not_or, not_and, not_lt, not_le] at *
rcases lt_or_eq_of_le h.1 with hlt | heq
· exact Or.inl hlt
· exact Or.inr ⟨heq, le_of_lt (h.2 heq.symm)⟩

theorem popMin_eq_none {α : Type} {l : List (Ev α)} :
    popMin l = none ↔ l = [] := by
cases l with
| nil => simp [popMin]
| cons e es =>
  simp only [popMin]
  cases hes : popMin es with
  | none => simp
  | some p => cases p with | mk m rest => by_cases h : Ev.le e m = true <;> simp [h]

theorem popMin_perm {α : Type} {l : List (Ev α)} {m : Ev α}
    {r : List (Ev α)} (h : popMin l = some (m, r)) : l.Perm (m :: r) := by
induction l generalizing m r with
| nil => simp [popMin] at h
| cons e es ih =>
  rw [popMin] at h
  cases hes : popMin es with
  | none =>
    rw [hes] at h
    simp only [Option.some.injEq, Prod.mk.injEq] at h
    obtain ⟨rfl, rfl⟩ := h
    exact List.Perm.refl _
  | some p =>
    obtain ⟨m', rest'⟩ := p
    rw [hes] at h
    by_cases hle : Ev.le e m' = true
    · simp only [hle, if_true, Option.some.injEq, Prod.mk.injEq] at h
      obtain ⟨rfl, rfl⟩ := h
      exact List.Perm.refl _
    · simp only [hle, if_false, Option.some.injEq, Prod.mk.injEq] at h
      obtain ⟨rfl, rfl⟩ := h
      exact List.Perm.trans (List.Perm.cons e (ih hes)) (List.Perm.swap _ _ _)

theorem popMin_le_all {α : Type} {l : List (Ev α)} {m : Ev α}
    {r : List (Ev α)} (h : popMin l = some (m, r)) :
    ∀ e ∈ l, Ev.le m e = true := by
induction l generalizing m r with
| nil => simp [popMin] at h
| cons e es ih =>
  rw [popMin] at h
  cases hes : popMin es with
  | none =>
    rw [hes] at h
    simp only [Option.some.injEq, Prod.mk.injEq] at h
    obtain ⟨rfl, rfl⟩ := h
    have : es = [] := popMin_eq_none.1 hes
    subst this
    intro x hx
    simp at hx
    subst hx
    exact Ev.le_refl _
  | some p =>
    obtain ⟨m', rest'⟩ := p
    rw [hes] at h
    by_cases hle : Ev.le e m' = true
    · simp only [hle, if_true, Option.some.injEq, Prod.mk.injEq] at h
      obtain ⟨rfl, rfl⟩ := h
      intro x hx
      rcases List.mem_cons.1 hx with rfl | hx
      · exact Ev.le_refl _
      · exact Ev.le_trans hle (ih hes x hx)
    · simp only [hle, if_false, Option.some.injEq, Prod.mk.injEq] at h
      obtain ⟨rfl, rfl⟩ := h
      intro x hx
      rcases List.mem_cons.1 hx with rfl | hx
      · exact Ev.le_of_not_le hle
      · exact ih hes x hx

/-!
List bookkeeping lemmas.
-/

theorem sum_map_set {α : Type} (f : α → ℕ) (l : List α) (i : ℕ) (a : α)
    (h : i < l.length) :
    ((l.set i a).map f).sum + f l[i] = (l.map f).sum + f a := by
induction l generalizing i with
| nil => simp at h
| cons x xs ih =>
  cases i with
  | zero => simp [List.set]; omega
  | succ n =>
    simp only [List.set, List.map_cons, List.sum_cons, List.length_cons] at *
    have hn : n < xs.length := Nat.lt_of_succ_lt_succ h
    have := ih n hn
    simp only [List.getElem_cons_succ]
    omega

theorem getD_ne_nil_lt {α : Type} {l : List (List α)} {i : ℕ}
    (h : l.getD i [] ≠ []) : i < l.length := by
by_contra hge
push_neg at hge
rw [List.getD_eq_default _ _ hge] at h
exact h rfl

/-- C8: Link.start_transmission starts at max(now, busy_until), sets
busy_until to start plus the serialization time, returns that new
busy_until plus the propagation delay as the arrival time; a zero-size
message has zero transmission time yet still yields a valid arrival
time, and busy_until never decreases across calls when the bandwidth is
positive. -/
theorem C8_link_start_transmission_spec (l : Link) (now : ℚ)
    (size_bytes : ℕ) (hbw : 0 < l.bandwidth_bps) :
    ((l.start_transmission now size_bytes).1.busy_until
        = max now l.busy_until + l.get_transmission_time size_bytes) ∧
    ((l.start_transmission now size_bytes).2
        = (l.start_transmission now size_bytes).1.busy_until + l.delay_sec) ∧
    (l.get_transmission_time 0 = 0) ∧
    ((l.start_transmission now 0).2 = max now l.busy_until + l.delay_sec) ∧
    (l.busy_until ≤ (l.start_transmission now size_bytes).1.busy_until) := by
refine ⟨rfl, rfl, ?_, ?_, ?_⟩
· simp [Link.get_transmission_time]
· simp [Link.start_transmission, Link.get_transmission_time]
· show l.busy_until ≤ max now l.busy_until + l.get_transmission_time size_bytes
  have h1 : l.busy_until ≤ max now l.busy_until := le_max_right _ _
  have h2 : 0 ≤ l.get_transmission_time size_bytes := by
    unfold Link.get_transmission_time
    positivity
  linarith

theorem C8_link_start_transmission_spec_witness :
    (((Link.init "w" 100 1).start_transmission 0 1500).1.busy_until
        = max 0 (Link.init "w" 100 1).busy_until
            + (Link.init "w" 100 1).get_transmission_time 1500)
      ∧ ((Link.init "w" 100 1).start_transmission 0 0).2
        = max 0 (Link.init "w" 100 1).busy_until + (Link.init "w" 100 1).delay_sec := by
have h := C8_link_start_transmission_spec (Link.init "w" 100 1) 0 1500 (by norm_num [Link.init])
exact ⟨h.1, h.2.2.2.1⟩

/-- C10: in Network.export_to_csv, a delivered message whose end-to-end
delay is exactly zero gets an empty end_to_end_delay_ms cell — the same
cell a dropped row gets — because the source tests the delay for
truthiness; a delivered message with positive delay gets delay * 1000. -/
theorem C10_csv_zero_delay_empty (m : Message) (a : ℚ)
    (hd : m.dropped = false) (ha : m.arrival_time = some a) :
    (a - m.creation_time = 0 →
      export_row_delay_ms m = none ∧ export_row_delay_ms m = dropped_row_delay_ms) ∧
    (0 < a - m.creation_time →
      export_row_delay_ms m = some ((a - m.creation_time) * 1000)) := by
constructor
· intro h0
  constructor <;>
    simp [export_row_delay_ms, Message.get_end_to_end_delay, ha, hd, h0,
      dropped_row_delay_ms]
· intro hpos
  simp [export_row_delay_ms, Message.get_end_to_end_delay, ha, hd, ne_of_gt hpos]

theorem C10_csv_zero_delay_empty_witness :
    export_row_delay_ms
        { msg_id := 0, stream_id := 0, seq_num := 0, priority := 0,
          src_node := "A", dst_node := "B", size_bytes := 0,
          creation_time := 5, arrival_time := some 5 } = dropped_row_delay_ms := by
have h := C10_csv_zero_delay_empty
  { msg_id := 0, stream_id := 0, seq_num := 0, priority := 0,
    src_node := "A", dst_node := "B", size_bytes := 0,
    creation_time := 5, arrival_time := some 5 } 5 rfl rfl
exact (h.1 (by norm_num)).2

theorem eq_nil_of_getLast?_eq_none {α : Type} {l : List α}
    (h : l.getLast? = none) : l = [] := by
cases l with
| nil => rfl
| cons x xs => simp at h

/-- Joint characterisation of the scans of get_lowest_priority_message
and drop_lowest_priority_message over an arbitrary priority scan list:
the found priority is in the list, the returned entry is the last
(newest) element of its queue, the drop removes exactly that element,
and every queue scanned before the found one is empty. -/
theorem getLowestAux_spec (pq : PriorityQueue) (ps : List ℕ) (p mid : ℕ)
    (port : String) (h : pq.getLowestAux ps = some (p, mid, port)) :
    p ∈ ps ∧
    (pq.queues.getD p []).getLast? = some (mid, port) ∧
    pq.dropLowestAux ps =
      some (mid, { queues := pq.queues.set p (pq.queues.getD p []).dropLast,
                   total_size := pq.total_size - 1 }) ∧
    ∀ q ∈ ps.takeWhile (fun q => decide (q ≠ p)), pq.queues.getD q [] = [] := by
induction ps with
| nil => simp [PriorityQueue.getLowestAux] at h
| cons p' ps' ih =>
  rw [PriorityQueue.getLowestAux] at h
  cases hl : (pq.queues.getD p' []).getLast? with
  | some v =>
    obtain ⟨m0, pt0⟩ := v
    rw [hl] at h
    simp only [Option.some.injEq, Prod.mk.injEq] at h
    obtain ⟨rfl, rfl, rfl⟩ := h
    refine ⟨List.mem_cons_self _ _, hl, ?_, ?_⟩
    · rw [PriorityQueue.dropLowestAux, hl]
    · intro q hq
      rw [List.takeWhile_cons] at hq
      simp at hq
  | none =>
    rw [hl] at h
    have hnil : pq.queues.getD p' [] = [] := eq_nil_of_getLast?_eq_none hl
    obtain ⟨hmem, hlast, hdrop, hempt⟩ := ih h
    have hne : p ≠ p' := by
      intro he
      rw [he, hnil] at hlast
      simp at hlast
    refine ⟨List.mem_cons_of_mem _ hmem, hlast, ?_, ?_⟩
    · rw [PriorityQueue.dropLowestAux, hl]
      exact hdrop
    · intro q hq
      rw [List.takeWhile_cons, if_pos (by simpa using hne.symm)] at hq
      rcases List.mem_cons.1 hq with rfl | hq
      · exact hnil
      · exact hempt q hq

/-- C3 counterexample: with two priority-0 messages, 10 enqueued before
11, get_lowest_priority_message returns message 11 — the newest, not the
FIFO head 10 — and drop_lowest_priority_message removes 11. -/
theorem C3_counterexample_newest_not_oldest :
    pqExC3.get_lowest_priority_message = some (0, 11, "p") ∧
    (pqExC3.queues.getD 0 []).head? = some (10, "p") ∧
    pqExC3.get_lowest_priority_message ≠ some (0, 10, "p") ∧
    (pqExC3.drop_lowest_priority_message.map Prod.fst) = some 11 := by
decide

/-- C3 amended: for every non-empty PriorityQueue,
get_lowest_priority_message returns (without removing), and
drop_lowest_priority_message removes and returns, the newest (most
recently enqueued, tail) message within the lowest-indexed non-empty
priority class, scanning priorities 0 up to 7. -/
theorem C3_amended_lowest_priority_tail (pq : PriorityQueue) (p mid : ℕ)
    (port : String) (h : pq.get_lowest_priority_message = some (p, mid, port)) :
    (pq.queues.getD p []).getLast? = some (mid, port) ∧
    (∀ q, q < p → pq.queues.getD q [] = []) ∧
    pq.drop_lowest_priority_message =
      some (mid, { queues := pq.queues.set p (pq.queues.getD p []).dropLast,
                   total_size := pq.total_size - 1 }) := by
obtain ⟨hmem, hlast, hdrop, hempt⟩ := getLowestAux_spec pq _ p mid port h
refine ⟨hlast, ?_, hdrop⟩
intro q hq
apply hempt
have hp : p < 8 := by
  simp only [List.mem_cons, List.mem_singleton, List.not_mem_nil, or_false] at hmem
  rcases hmem with rfl | rfl | rfl | rfl | rfl | rfl | rfl | rfl <;> norm_num
interval_cases p <;> interval_cases q <;> decide

theorem C3_amended_lowest_priority_tail_witness :
    (pqExC3.queues.getD 0 []).getLast? = some (11, "p") ∧
    pqExC3.drop_lowest_priority_message =
      some (11, { queues := pqExC3.queues.set 0 (pqExC3.queues.getD 0 []).dropLast,
                  total_size := pqExC3.total_size - 1 }) := by
have h := C3_amended_lowest_priority_tail pqExC3 0 11 "p" (by decide)
exact ⟨h.1, h.2.2⟩

/-- C4 counterexample: delivering a message to a destination that is
neither a registered switch nor a registered node leaves the network
unchanged — the message is not marked dropped and not recorded in the
dropped sink, contrary to the claim. -/
theorem C4_counterexample_unknown_destination_not_recorded :
    Network.deliver_message netC4 0 "X" = netC4 ∧
    (Network.deliver_message netC4 0 "X").dropped_messages = [] ∧
    ((Network.deliver_message netC4 0 "X").messages.get? 0).map Message.dropped
      = some false ∧
    ((Network.deliver_message netC4 0 "X").messages.get? 0).map Message.drop_reason
      = some "" := by
refine ⟨by decide, by decide, by decide, by decide⟩

/-- C4 amended: a message delivered to an unknown destination is neither
marked dropped nor recorded in any sink; the warning is only printed, the
message is lost, and the simulation continues without raising (the state
is entirely unchanged). -/
theorem C4_amended_unknown_destination_lost (s : Net) (mid : ℕ)
    (dest : String)
    (hsw : s.switches.findIdx? (fun sw => sw.name == dest) = none)
    (hnd : s.nodes.findIdx? (fun n => n.name == dest) = none) :
    Network.deliver_message s mid dest = s := by
unfold Network.deliver_message
rw [hsw, hnd]

theorem C4_amended_unknown_destination_lost_witness :
    Network.deliver_message netC4 0 "X" = netC4 :=
C4_amended_unknown_destination_lost netC4 0 "X" (by decide) (by decide)

/-- C9: event ordering is lexicographic by (time, insertion sequence
number): schedule_event stamps each new event with the running counter
(so later insertions get strictly larger sequence numbers) and preserves
the scheduler invariant, and under that invariant the event popped by
the run loop precedes every event still pending — strictly earlier in
time, or at the same time strictly earlier in insertion order. Since the
invariant is preserved both by scheduling and by popping, this holds
along every sequence of schedule_event calls, including re-entrant
scheduling from inside handlers. -/
theorem C9_event_ordering_lex (s : Net) (t : ℚ) (a : Action)
    (hInv : SeqInv s) :
    ((Network.schedule_event s t a).event_counter = s.event_counter + 1) ∧
    ((Network.schedule_event s t a).event_queue
        = ⟨t, s.event_counter, a⟩ :: s.event_queue) ∧
    SeqInv (Network.schedule_event s t a) ∧
    (∀ m r, popMin s.event_queue = some (m, r) →
      (∀ e ∈ r, m.time < e.time ∨ (m.time = e.time ∧ m.seq < e.seq)) ∧
      SeqInv { s with event_queue := r }) := by
obtain ⟨hlt, hpw⟩ := hInv
refine ⟨rfl, rfl, ⟨?_, ?_⟩, ?_⟩
· intro e he
  rcases List.mem_cons.1 he with rfl | he
  · exact Nat.lt_succ_self _
  · exact Nat.lt_succ_of_lt (hlt e he)
· refine List.Pairwise.cons ?_ hpw
  intro e he hne
  exact absurd hne.symm (Nat.ne_of_lt (hlt e he))
· intro m r hpop
  have hperm := popMin_perm hpop
  have hpw' : (m :: r).Pairwise (fun a b => a.seq ≠ b.seq) :=
    (hperm.pairwise_iff (fun h => Ne.symm h)).1 hpw
  refine ⟨?_, ?_, hpw'.of_cons⟩
  · intro e he
    have hmem : e ∈ s.event_queue := hperm.mem_iff.2 (List.mem_cons_of_mem _ he)
    have hle := popMin_le_all hpop e hmem
    have hne : m.seq ≠ e.seq := (List.pairwise_cons.1 hpw').1 e he
    simp only [Ev.le, Bool.or_eq_true, Bool.and_eq_true, decide_eq_true_eq] at hle
    rcases hle with hlt' | ⟨heq, hle'⟩
    · exact Or.inl hlt'
    · exact Or.inr ⟨heq, lt_of_le_of_ne hle' hne⟩
  · intro e he
    exact hlt e (hperm.mem_iff.2 (List.mem_cons_of_mem _ he))

theorem C9_event_ordering_lex_witness :
    (Network.schedule_event
        { sim_duration := 1, event_queue := [⟨0, 0, Action.deliver 0 "B"⟩],
          event_counter := 1 }
        (1 / 2) (Action.generate 0 0 (1 / 2))).event_counter = 2 := by
have h := C9_event_ordering_lex
  { sim_duration := 1, event_queue := [⟨0, 0, Action.deliver 0 "B"⟩],
    event_counter := 1 }
  (1 / 2) (Action.generate 0 0 (1 / 2))
  (by constructor
      · intro e he
        simp only [List.mem_singleton] at he
        subst he
        norm_num
      · simp)
exact h.1

/-!
Length bookkeeping for the priority queue operations, feeding the
conservation argument.
-/

theorem pqLen_enqueue_le (pq : PriorityQueue) (mid p : ℕ) (port : String) :
    pqLen (pq.enqueue mid p port) ≤ pqLen pq + 1 := by
unfold PriorityQueue.enqueue pqLen
by_cases hp : p < pq.queues.length
· have hs := sum_map_set List.length pq.queues p ((pq.queues.getD p []) ++ [(mid, port)]) hp
  have hget : pq.queues.getD p [] = pq.queues[p] := List.getD_eq_getElem _ _ hp
  rw [← hget] at hs
  simp only [List.length_append, List.length_cons, List.length_nil] at hs
  dsimp only
  omega
· have hset : pq.queues.set p ((pq.queues.getD p []) ++ [(mid, port)]) = pq.queues :=
    List.set_eq_of_length_le (le_of_not_lt hp)
  dsimp only
  rw [hset]
  omega

theorem ne_nil_of_getLast?_eq_some {α : Type} {l : List α} {a : α}
    (h : l.getLast? = some a) : l ≠ [] := by
intro he
subst he
simp at h

theorem dequeueAux_pqLen (pq : PriorityQueue) (ps : List ℕ)
    (x : ℕ × String) (pq' : PriorityQueue)
    (h : pq.dequeueAux ps = some (x, pq')) : pqLen pq' + 1 = pqLen pq := by
induction ps with
| nil => simp [PriorityQueue.dequeueAux] at h
| cons p ps' ih =>
  rw [PriorityQueue.dequeueAux] at h
  cases hq : pq.queues.getD p [] with
  | nil =>
    rw [hq] at h
    exact ih h
  | cons y ys =>
    rw [hq] at h
    simp only [Option.some.injEq, Prod.mk.injEq] at h
    obtain ⟨-, rfl⟩ := h
    have hp : p < pq.queues.length := getD_ne_nil_lt (by rw [hq]; simp)
    have hs := sum_map_set List.length pq.queues p ys hp
    have hget : pq.queues.getD p [] = pq.queues[p] := List.getD_eq_getElem _ _ hp
    rw [← hget, hq] at hs
    unfold pqLen
    simp only [List.length_cons] at hs
    dsimp only
    omega

theorem dequeue_pqLen {pq : PriorityQueue} {x : ℕ × String}
    {pq' : PriorityQueue} (h : pq.dequeue = some (x, pq')) :
    pqLen pq' + 1 = pqLen pq :=
dequeueAux_pqLen pq _ x pq' h

theorem dropLowestAux_pqLen (pq : PriorityQueue) (ps : List ℕ)
    (mid : ℕ) (pq' : PriorityQueue)
    (h : pq.dropLowestAux ps = some (mid, pq')) : pqLen pq' + 1 = pqLen pq := by
induction ps with
| nil => simp [PriorityQueue.dropLowestAux] at h
| cons p ps' ih =>
  rw [PriorityQueue.dropLowestAux] at h
  cases hq : (pq.queues.getD p []).getLast? with
  | none =>
    rw [hq] at h
    exact ih h
  | some v =>
    rw [hq] at h
    simp only [Option.some.injEq, Prod.mk.injEq] at h
    obtain ⟨-, rfl⟩ := h
    have hnil : pq.queues.getD p [] ≠ [] := ne_nil_of_getLast?_eq_some hq
    have hp : p < pq.queues.length := getD_ne_nil_lt hnil
    have hs := sum_map_set List.length pq.queues p (pq.queues.getD p []).dropLast hp
    have hget : pq.queues.getD p [] = pq.queues[p] := List.getD_eq_getElem _ _ hp
    rw [← hget] at hs
    have hlen : (pq.queues.getD p []).length ≥ 1 := by
      cases hc : pq.queues.getD p [] with
      | nil => exact absurd hc hnil
      | cons z zs => simp
    rw [List.length_dropLast] at hs
    unfold pqLen
    dsimp only
    omega

theorem dropLowest_pqLen {pq : PriorityQueue} {mid : ℕ}
    {pq' : PriorityQueue} (h : pq.drop_lowest_priority_message = some (mid, pq')) :
    pqLen pq' + 1 = pqLen pq :=
dropLowestAux_pqLen pq _ mid pq' h

theorem liveQueued_list_set {l : List Switch} {i : ℕ} {sw : Switch}
    (hsw : l.get? i = some sw) (sw' : Switch) :
    ((l.set i sw').map (fun x => pqLen x.priority_queue)).sum
        + pqLen sw.priority_queue
      = (l.map (fun x => pqLen x.priority_queue)).sum
        + pqLen sw'.priority_queue := by
obtain ⟨hlt, hget⟩ := List.get?_eq_some.1 hsw
have hs := sum_map_set (fun x => pqLen x.priority_queue) l i sw' hlt
rw [List.get_eq_getElem] at hget
rw [hget] at hs
exact hs

theorem Phi_schedule_not_deliver (s : Net) (t : ℚ) (a : Action)
    (h : Action.isDeliver a = false) :
    Phi (Network.schedule_event s t a) = Phi s := by
simp [Phi, Network.schedule_event, liveEvents, liveQueued, List.filter_cons, h]

theorem Phi_schedule_deliver (s : Net) (t : ℚ) (mid : ℕ) (dest : String) :
    Phi (Network.schedule_event s t (.deliver mid dest)) = Phi s + 1 := by
simp [Phi, Network.schedule_event, liveEvents, liveQueued, List.filter_cons,
  Action.isDeliver]
omega

theorem schedule_event_id (s : Net) (t : ℚ) (a : Action) :
    (Network.schedule_event s t a).message_id_counter = s.message_id_counter :=
rfl

theorem forward_next_phi (s : Net) (i : ℕ) (t : ℚ) :
    Phi (Switch.forward_next_message s i t) ≤ Phi s := by
unfold Switch.forward_next_message
cases hsw : s.switches.get? i with
| none => exact le_refl _
| some sw =>
  dsimp only
  by_cases hemp : sw.priority_queue.is_empty = true
  · rw [if_pos hemp]
    have h := liveQueued_list_set hsw { sw with is_transmitting := false }
    simp only [Phi, liveEvents, liveQueued] at *
    try dsimp only at *
    omega
  · rw [if_neg hemp]
    try dsimp only
    cases hdeq : sw.priority_queue.dequeue with
    | none =>
      try dsimp only
      have h := liveQueued_list_set hsw
        { { sw with is_transmitting := true } with is_transmitting := false }
      simp only [Phi, liveEvents, liveQueued] at *
      try dsimp only at *
      omega
    | some pr =>
      obtain ⟨⟨mid, output_port⟩, pq'⟩ := pr
      try dsimp only
      have hq := dequeue_pqLen hdeq
      cases hlk : List.lookup output_port sw.output_links with
      | none =>
        try dsimp only
        have h := liveQueued_list_set hsw
          { { { sw with is_transmitting := true } with priority_queue := pq' } with is_transmitting := false }
        simp only [Phi, liveEvents, liveQueued] at *
        try dsimp only at *
        omega
      | some linkId =>
        try dsimp only
        have h := liveQueued_list_set hsw
          { { sw with is_transmitting := true } with priority_queue := pq' }
        cases hln : s.links.get? linkId with
        | none =>
          try dsimp only
          cases hms : s.messages.get? mid with
          | none =>
            simp only [Phi, liveEvents, liveQueued] at *
            try dsimp only at *
            omega
          | some message =>
            simp only [Phi, liveEvents, liveQueued] at *
            try dsimp only at *
            omega
        | some link =>
          try dsimp only
          cases hms : s.messages.get? mid with
          | none =>
            simp only [Phi, liveEvents, liveQueued] at *
            try dsimp only at *
            omega
          | some message =>
            have h2 := liveQueued_list_set hsw
              { { { sw with is_transmitting := true } with priority_queue := pq' }
                  with messages_forwarded := ({ sw with is_transmitting := true }).messages_forwarded + 1 }
            simp only [Phi, liveEvents, liveQueued, Network.schedule_event,
              List.filter_cons, Action.isDeliver] at *
            try dsimp only at *
            try simp at *
            omega

theorem forward_next_id (s : Net) (i : ℕ) (t : ℚ) :
    (Switch.forward_next_message s i t).message_id_counter
      = s.message_id_counter := by
unfold Switch.forward_next_message
cases hsw : s.switches.get? i with
| none => rfl
| some sw =>
  dsimp only
  by_cases hemp : sw.priority_queue.is_empty = true
  · rw [if_pos hemp]
  · rw [if_neg hemp]
    try dsimp only
    cases hdeq : sw.priority_queue.dequeue with
    | none => rfl
    | some pr =>
      obtain ⟨⟨mid, output_port⟩, pq'⟩ := pr
      try dsimp only
      cases hlk : List.lookup output_port sw.output_links with
      | none => rfl
      | some linkId =>
        try dsimp only
        cases hln : s.links.get? linkId <;> cases hms : s.messages.get? mid <;> rfl

theorem enqueue_and_forward_id (s : Net) (i mid p : ℕ) (port : String)
    (t : ℚ) :
    (Switch.enqueue_and_forward s i mid p port t).message_id_counter
      = s.message_id_counter := by
unfold Switch.enqueue_and_forward
cases hsw : s.switches.get? i with
| none => rfl
| some sw =>
  dsimp only
  by_cases htr : sw.is_transmitting = true
  · rw [if_pos htr]
  · rw [if_neg htr]
    exact forward_next_id _ _ _

theorem enqueue_and_forward_phi (s : Net) (i mid p : ℕ) (port : String)
    (t : ℚ) :
    Phi (Switch.enqueue_and_forward s i mid p port t) ≤ Phi s + 1 := by
unfold Switch.enqueue_and_forward
cases hsw : s.switches.get? i with
| none =>
  dsimp only
  omega
| some sw =>
  dsimp only
  have h := liveQueued_list_set hsw
    { sw with priority_queue := sw.priority_queue.enqueue mid p port }
  have he := pqLen_enqueue_le sw.priority_queue mid p port
  by_cases htr : sw.is_transmitting = true
  · rw [if_pos htr]
    simp only [Phi, liveEvents, liveQueued] at *
    try dsimp only at *
    omega
  · rw [if_neg htr]
    have hf := forward_next_phi ({ s with switches := s.switches.set i ({ sw with priority_queue := sw.priority_queue.enqueue mid p port }) }) i t
    simp only [Phi, liveEvents, liveQueued] at *
    try dsimp only at *
    omega


theorem receive_id (s : Net) (i mid : ℕ) (t : ℚ) :
    (Switch.receive_message s i mid t).message_id_counter
      = s.message_id_counter := by
unfold Switch.receive_message
cases hsw : s.switches.get? i <;> cases hmsg : s.messages.get? mid <;> try rfl
rename_i sw message
dsimp only
cases hfw : List.lookup message.dst_node sw.forwarding_table with
| none => rfl
| some output_port =>
  dsimp only
  cases hmq : sw.max_queue_size with
  | none =>
    dsimp only
    rw [enqueue_and_forward_id]
  | some mqs =>
    dsimp only
    by_cases hfull : sw.priority_queue.total_size ≥ mqs
    · rw [if_pos hfull]
      cases hlow : sw.priority_queue.get_lowest_priority_message with
      | none => rfl
      | some lw =>
        obtain ⟨lowest_priority, lmid, lport⟩ := lw
        dsimp only
        by_cases hpr : message.priority > lowest_priority
        · rw [if_pos hpr]
          cases hdrop : sw.priority_queue.drop_lowest_priority_message with
          | none =>
            dsimp only
            rw [enqueue_and_forward_id]
          | some pr2 =>
            obtain ⟨dropped_mid, pq'⟩ := pr2
            dsimp only
            cases hdm : s.messages.get? dropped_mid <;> (try dsimp only) <;> rw [enqueue_and_forward_id] <;> rfl
        · rw [if_neg hpr]
          rfl
    · rw [if_neg hfull]
      try dsimp only
      rw [enqueue_and_forward_id]

theorem receive_phi (s : Net) (i mid : ℕ) (t : ℚ) :
    Phi (Switch.receive_message s i mid t) ≤ Phi s + 1 := by
unfold Switch.receive_message
cases hsw : s.switches.get? i <;> cases hmsg : s.messages.get? mid <;> try exact Nat.le_succ _
rename_i sw message
dsimp only
cases hfw : List.lookup message.dst_node sw.forwarding_table with
| none =>
  try dsimp only
  have h := liveQueued_list_set hsw { { sw with messages_received := sw.messages_received + 1 } with messages_dropped := ({ sw with messages_received := sw.messages_received + 1 }).messages_dropped + 1 }
  simp only [Phi, liveEvents, liveQueued, Network.track_dropped_message, List.set_set] at *
  try dsimp only at *
  simp only [List.length_append, List.length_cons, List.length_nil] at *
  omega
| some output_port =>
  dsimp only
  cases hmq : sw.max_queue_size with
  | none =>
    dsimp only
    refine le_trans (enqueue_and_forward_phi _ _ _ _ _ _) ?_
    have h := liveQueued_list_set hsw { sw with messages_received := sw.messages_received + 1 }
    rw [hmq] at h
    simp only [Phi, liveEvents, liveQueued] at *
    try dsimp only at *
    omega
  | some mqs =>
    dsimp only
    by_cases hfull : sw.priority_queue.total_size ≥ mqs
    · rw [if_pos hfull]
      cases hlow : sw.priority_queue.get_lowest_priority_message with
      | none =>
        dsimp only
        have h := liveQueued_list_set hsw { { sw with messages_received := sw.messages_received + 1 } with messages_dropped := sw.messages_dropped + 1, drops_by_priority := assocSet sw.drops_by_priority message.priority (assocGetD sw.drops_by_priority message.priority 0 + 1) }
        rw [hmq] at h
        simp only [Phi, liveEvents, liveQueued, Network.track_dropped_message, List.set_set] at *
        try dsimp only at *
        simp only [List.length_append, List.length_cons, List.length_nil] at *
        omega
      | some lw =>
        obtain ⟨lowest_priority, lmid, lport⟩ := lw
        dsimp only
        by_cases hpr : message.priority > lowest_priority
        · rw [if_pos hpr]
          cases hdrop : sw.priority_queue.drop_lowest_priority_message with
          | none =>
            dsimp only
            refine le_trans (enqueue_and_forward_phi _ _ _ _ _ _) ?_
            have h := liveQueued_list_set hsw { sw with messages_received := sw.messages_received + 1 }
            rw [hmq] at h
            simp only [Phi, liveEvents, liveQueued] at *
            try dsimp only at *
            omega
          | some pr2 =>
            obtain ⟨dropped_mid, pq'⟩ := pr2
            have hd := dropLowest_pqLen hdrop
            try dsimp only
            cases hdm : s.messages.get? dropped_mid
            all_goals
              try dsimp only
            all_goals
              refine le_trans (enqueue_and_forward_phi _ _ _ _ _ _) ?_
            · have h := liveQueued_list_set hsw { { sw with messages_received := sw.messages_received + 1 } with priority_queue := pq', messages_dropped := sw.messages_dropped + 1 }
              rw [hmq] at h
              simp only [Phi, liveEvents, liveQueued, Network.track_dropped_message, List.set_set] at *
              try dsimp only at *
              simp only [List.length_append, List.length_cons, List.length_nil] at *
              omega
            · rename_i dm
              have h := liveQueued_list_set hsw { { sw with messages_received := sw.messages_received + 1 } with priority_queue := pq', messages_dropped := sw.messages_dropped + 1, drops_by_priority := assocSet sw.drops_by_priority dm.priority (assocGetD sw.drops_by_priority dm.priority 0 + 1) }
              rw [hmq] at h
              simp only [Phi, liveEvents, liveQueued, Network.track_dropped_message, List.set_set] at *
              try dsimp only at *
              simp only [List.length_append, List.length_cons, List.length_nil] at *
              omega
        · rw [if_neg hpr]
          try dsimp only
          have h := liveQueued_list_set hsw { { sw with messages_received := sw.messages_received + 1 } with messages_dropped := sw.messages_dropped + 1, drops_by_priority := assocSet sw.drops_by_priority message.priority (assocGetD sw.drops_by_priority message.priority 0 + 1) }
          rw [hmq] at h
          simp only [Phi, liveEvents, liveQueued, Network.track_dropped_message, List.set_set] at *
          try dsimp only at *
          simp only [List.length_append, List.length_cons, List.length_nil] at *
          omega
    · rw [if_neg hfull]
      try dsimp only
      refine le_trans (enqueue_and_forward_phi _ _ _ _ _ _) ?_
      have h := liveQueued_list_set hsw { sw with messages_received := sw.messages_received + 1 }
      rw [hmq] at h
      simp only [Phi, liveEvents, liveQueued] at *
      try dsimp only at *
      omega

theorem node_receive_id (s : Net) (ni mid : ℕ) (t : ℚ) :
    (Node.receive_message s ni mid t).message_id_counter
      = s.message_id_counter := by
unfold Node.receive_message
cases h1 : s.nodes.get? ni <;> cases h2 : s.messages.get? mid <;> rfl

theorem node_receive_phi (s : Net) (ni mid : ℕ) (t : ℚ) :
    Phi (Node.receive_message s ni mid t) = Phi s := by
unfold Node.receive_message
cases h1 : s.nodes.get? ni <;> cases h2 : s.messages.get? mid <;> rfl

theorem deliver_id (s : Net) (mid : ℕ) (dest : String) :
    (Network.deliver_message s mid dest).message_id_counter
      = s.message_id_counter := by
unfold Network.deliver_message
cases hfs : s.switches.findIdx? (fun sw => sw.name == dest) with
| some i => exact receive_id _ _ _ _
| none =>
  dsimp only
  cases hfn : s.nodes.findIdx? (fun n => n.name == dest) with
  | none => rfl
  | some ni =>
    dsimp only
    cases hm : s.messages.get? mid with
    | none => rfl
    | some message => exact node_receive_id s ni mid s.current_time

theorem deliver_phi (s : Net) (mid : ℕ) (dest : String) :
    Phi (Network.deliver_message s mid dest) ≤ Phi s + 1 := by
unfold Network.deliver_message
cases hfs : s.switches.findIdx? (fun sw => sw.name == dest) with
| some i => exact receive_phi _ _ _ _
| none =>
  dsimp only
  cases hfn : s.nodes.findIdx? (fun n => n.name == dest) with
  | none => exact Nat.le_succ _
  | some ni =>
    dsimp only
    cases hm : s.messages.get? mid with
    | none => exact Nat.le_succ _
    | some message =>
      dsimp only
      have h := node_receive_phi s ni mid s.current_time
      simp only [Phi, liveEvents, liveQueued] at *
      try dsimp only at *
      simp only [List.length_append, List.length_cons, List.length_nil] at *
      omega

theorem generate_phi_id (s : Net) (ni sid : ℕ) (t : ℚ) :
    Phi (Node.generate_message s ni sid t) + s.message_id_counter
      ≤ Phi s + (Node.generate_message s ni sid t).message_id_counter := by
unfold Node.generate_message
cases h1 : s.nodes.get? ni with
| none => exact Nat.le_refl _
| some node =>
  dsimp only
  cases h2 : node.output_link with
  | none => exact Nat.le_refl _
  | some linkId =>
    dsimp only
    cases h3 : List.lookup sid node.streams with
    | none => exact Nat.le_refl _
    | some stream =>
      dsimp only
      cases h4 : s.links.get? linkId with
      | none => exact Nat.le_refl _
      | some link =>
        dsimp only
        simp only [Network.schedule_event]
        try dsimp only
        by_cases h5 : t + stream.message_interval_sec < s.sim_duration
        · rw [if_pos h5]
          simp [Phi, liveEvents, liveQueued, Network.schedule_event,
            List.filter_cons, Action.isDeliver]
          omega
        · rw [if_neg h5]
          simp [Phi, liveEvents, liveQueued, Network.schedule_event,
            List.filter_cons, Action.isDeliver]
          omega

theorem dispatch_phi (s : Net) (a : Action) :
    Phi (Network.dispatch s a) + s.message_id_counter
      ≤ Phi s + (Network.dispatch s a).message_id_counter
          + (if Action.isDeliver a = true then 1 else 0) := by
cases a with
| generate ni sid t =>
  have h := generate_phi_id s ni sid t
  simp only [Network.dispatch, Action.isDeliver]
  simp only [Bool.false_eq_true, if_false]
  omega
| deliver mid dest =>
  have h1 := deliver_phi s mid dest
  have h2 := deliver_id s mid dest
  simp only [Network.dispatch, Action.isDeliver, if_true]
  omega
| forward_next i linkId =>
  have h1 := forward_next_phi s i
    (match s.links.get? linkId with | some l => l.busy_until | none => 0)
  have h2 := forward_next_id s i
    (match s.links.get? linkId with | some l => l.busy_until | none => 0)
  simp only [Network.dispatch, Action.isDeliver]
  simp only [Bool.false_eq_true, if_false]
  omega

theorem filter_popMin {l : List (Ev Action)} {e : Ev Action}
    {rest : List (Ev Action)} (h : popMin l = some (e, rest))
    (p : Ev Action → Bool) :
    (l.filter p).length
      = (if p e = true then 1 else 0) + (rest.filter p).length := by
have hp := (popMin_perm h).filter p
have hl := hp.length_eq
by_cases hpe : p e = true
· rw [List.filter_cons, if_pos hpe] at hl
  simp [hl, hpe]
  omega
· rw [List.filter_cons, if_neg hpe] at hl
  simp [hl, hpe]

theorem run_phi (fuel : ℕ) : ∀ (s : Net), Phi s ≤ s.message_id_counter →
    Phi (Network.run fuel s) ≤ (Network.run fuel s).message_id_counter := by
induction fuel with
| zero => intro s h; exact h
| succ n ih =>
  intro s h
  rw [Network.run]
  by_cases hc : (s.event_queue ≠ [] ∧ s.current_time < s.sim_duration)
  · rw [if_pos hc]
    cases hpop : popMin s.event_queue with
    | none => exact h
    | some pr =>
      obtain ⟨e, rest⟩ := pr
      dsimp only
      have hfilter := filter_popMin hpop (fun x => Action.isDeliver x.action)
      by_cases ht : e.time > s.sim_duration
      · rw [if_pos ht]
        simp only [Phi, liveEvents, liveQueued] at *
        try dsimp only at *
        omega
      · rw [if_neg ht]
        apply ih
        have hd := dispatch_phi ({ s with event_queue := rest, current_time := e.time }) e.action
        simp only [Phi, liveEvents, liveQueued] at *
        try dsimp only at *
        omega
  · rw [if_neg hc]
    exact h


section

set_option maxRecDepth 100000

/-- C2 counterexample: conservation fails in both directions. Over the
basic model, a single stream over a link with 2 s propagation delay
generates one message inside the 1 s horizon, but its delivery event
lies beyond sim_duration, so Network.run() ends with both sinks empty
while one message was generated. With a PreemptiveSwitch driven by the
same event loop, running the preempt-then-resume scenario to completion
delivers message 0 twice — the stale completion event of the preempted
transmission was never cancelled — so completed_messages ends with three
entries, message 0 appearing twice, though only two messages exist. -/
theorem C2_counterexample_sink_miscount :
    ((Network.run 10 netC2).completed_messages.length
        + (Network.run 10 netC2).dropped_messages.length = 0 ∧
      (Network.run 10 netC2).message_id_counter = 1) ∧
    ((PNet.run 1 30 s2C1).completed_messages = [0, 0, 1] ∧
      (PNet.run 1 30 s2C1).event_queue = [] ∧
      s2C1.messages.length = 2) := by
refine ⟨⟨?_, ?_⟩, ?_, ?_, ?_⟩ <;> with_unfolding_all decide

end

/-- C2 amended: at the end of Network.run() over a network of basic
(non-preemptive) switches, completed plus dropped never exceeds the
number of messages generated — each sink entry consumes a distinct
generated message — but equality can fail: messages still queued at a
switch or in flight on a link when the horizon is reached (and messages
lost to unknown destinations or missing links) are in neither sink.
With PreemptiveSwitch instances in the network even this upper bound
fails: the never-cancelled completion event of a preempted-then-resumed
transmission delivers its message a second time, so completed_messages
can hold the same message twice. Phi counts sink entries plus in-flight
and queued messages; it starts at or below the id counter and the basic
run keeps it there. -/
theorem C2_amended_sink_conservation (fuel : ℕ) (s : Net)
    (h : Phi s ≤ s.message_id_counter) :
    (Network.run fuel s).completed_messages.length
        + (Network.run fuel s).dropped_messages.length
      ≤ (Network.run fuel s).message_id_counter := by
have hr := run_phi fuel s h
unfold Phi at hr
omega

theorem C2_amended_sink_conservation_witness :
    (Network.run 10 netC2).completed_messages.length
        + (Network.run 10 netC2).dropped_messages.length
      ≤ (Network.run 10 netC2).message_id_counter := by
exact C2_amended_sink_conservation 10 netC2 (by decide)



/-!
Lemmas and claims about the preemption machinery of PreemptiveSwitch and
the capacity handling of the basic Switch.
-/

theorem get?_set_self {α : Type} {l : List α} {i : ℕ} (a : α)
    (h : i < l.length) : (l.set i a).get? i = some a := by
rw [List.get?_eq_getElem?]
exact List.getElem?_set_eq_of_lt a h

theorem get?_set_ne {α : Type} {l : List α} {i j : ℕ} (a : α)
    (h : i ≠ j) : (l.set i a).get? j = l.get? j := by
rw [List.get?_eq_getElem?, List.get?_eq_getElem?]
exact List.getElem?_set_ne h

/-- Preemption statistics projection: the pair of preemptions_count and
last_preemption_time of the switch at an index. -/
def pcs (s : PNet) (j : ℕ) : Option (ℕ × ℚ) :=
(s.switches.get? j).map (fun x => (x.preemptions_count, x.last_preemption_time))

theorem pcs_list_set {l : List PSwitch} {i : ℕ} {sw : PSwitch}
    (hsw : l.get? i = some sw) (sw' : PSwitch)
    (hf : sw'.preemptions_count = sw.preemptions_count ∧
          sw'.last_preemption_time = sw.last_preemption_time) (j : ℕ) :
    ((l.set i sw').get? j).map (fun x => (x.preemptions_count, x.last_preemption_time))
      = (l.get? j).map (fun x => (x.preemptions_count, x.last_preemption_time)) := by
by_cases hij : i = j
· subst hij
  have hlt : i < l.length := (List.get?_eq_some.1 hsw).1
  rw [get?_set_self sw' hlt, hsw]
  simp [hf.1, hf.2]
· rw [get?_set_ne sw' hij]

theorem pcs_start_transmission (s : PNet) (i mid : ℕ) (output_port : String)
    (linkId : ℕ) (t : ℚ) (j : ℕ) :
    pcs (PSwitch.start_transmission s i mid output_port linkId t) j = pcs s j := by
unfold PSwitch.start_transmission
cases hsw : s.switches.get? i <;> cases hmsg : s.messages.get? mid <;>
  cases hln : s.links.get? linkId <;> try rfl
rename_i sw message link
dsimp only
unfold pcs
dsimp only [PNet.schedule_event]
refine pcs_list_set hsw _ ⟨?_, ?_⟩ j <;> rfl

theorem pcs_resume (s : PNet) (i : ℕ) (t : ℚ) (j : ℕ) :
    pcs (PSwitch.resume_paused_transmission s i t) j = pcs s j := by
unfold PSwitch.resume_paused_transmission
cases hsw : s.switches.get? i with
| none => rfl
| some sw =>
  dsimp only
  cases hp : sw.paused_transmissions with
  | nil => rfl
  | cons paused rest =>
    dsimp only
    cases hln : s.links.get? paused.link with
    | none => rfl
    | some link =>
      dsimp only
      unfold pcs
      dsimp only [PNet.schedule_event]
      refine pcs_list_set hsw _ ⟨?_, ?_⟩ j <;> rfl

theorem pcs_forward_next (s : PNet) (i : ℕ) (t : ℚ) (j : ℕ) :
    pcs (PSwitch.forward_next_message s i t) j = pcs s j := by
unfold PSwitch.forward_next_message
cases hsw : s.switches.get? i with
| none => rfl
| some sw =>
  dsimp only
  by_cases hp : sw.paused_transmissions ≠ []
  · rw [if_pos hp]
    rw [pcs_resume]
    unfold pcs
    refine pcs_list_set hsw _ ⟨?_, ?_⟩ j <;> rfl
  · rw [if_neg hp]
    try dsimp only
    by_cases hemp : sw.priority_queue.is_empty = true
    · rw [if_pos hemp]
      unfold pcs
      refine pcs_list_set hsw _ ⟨?_, ?_⟩ j <;> rfl
    · rw [if_neg hemp]
      try dsimp only
      cases hdeq : sw.priority_queue.dequeue with
      | none =>
        unfold pcs
        refine pcs_list_set hsw _ ⟨?_, ?_⟩ j <;> rfl
      | some pr =>
        obtain ⟨⟨mid, output_port⟩, pq'⟩ := pr
        try dsimp only
        cases hlk : List.lookup output_port sw.output_links with
        | none =>
          unfold pcs
          refine pcs_list_set hsw _ ⟨?_, ?_⟩ j <;> rfl
        | some linkId =>
          try dsimp only
          rw [pcs_start_transmission]
          unfold pcs
          refine pcs_list_set hsw _ ⟨?_, ?_⟩ j <;> rfl

theorem pcs_enqueue_phase (s : PNet) (i mid : ℕ) (output_port : String)
    (t : ℚ) (j : ℕ) :
    pcs (PSwitch.receive_enqueue_phase s i mid output_port t) j = pcs s j := by
unfold PSwitch.receive_enqueue_phase
cases hsw : s.switches.get? i <;> cases hmsg : s.messages.get? mid <;> try rfl
rename_i sw message
dsimp only
have henq : ∀ (s1 : PNet), (∀ k, pcs s1 k = pcs s k) →
    pcs (match s1.switches.get? i with
         | none => s1
         | some sw2 =>
           let sw2 := { sw2 with priority_queue := sw2.priority_queue.enqueue mid message.priority output_port }
           let s2 := { s1 with switches := s1.switches.set i sw2 }
           if sw2.is_transmitting then s2 else PSwitch.forward_next_message s2 i t) j
      = pcs s j := by
  intro s1 hs1
  cases hsw1 : s1.switches.get? i with
  | none => exact hs1 j
  | some sw2 =>
    dsimp only
    by_cases htr : sw2.is_transmitting = true
    · rw [if_pos htr]
      rw [← hs1 j]
      unfold pcs
      refine pcs_list_set hsw1 _ ⟨?_, ?_⟩ j <;> rfl
    · rw [if_neg htr]
      rw [pcs_forward_next]
      rw [← hs1 j]
      unfold pcs
      refine pcs_list_set hsw1 _ ⟨?_, ?_⟩ j <;> rfl
cases hmq : sw.max_queue_size with
| none => exact henq _ (fun k => rfl)
| some mqs =>
  dsimp only
  by_cases hfull : sw.priority_queue.total_size ≥ mqs
  · rw [if_pos hfull]
    cases hlow : sw.priority_queue.get_lowest_priority_message with
    | none =>
      dsimp only
      unfold pcs PNet.track_dropped_message
      refine pcs_list_set hsw _ ⟨?_, ?_⟩ j <;> rfl
    | some lw =>
      obtain ⟨lowest_priority, lmid, lport⟩ := lw
      dsimp only
      by_cases hpr : message.priority > lowest_priority
      · rw [if_pos hpr]
        cases hdrop : sw.priority_queue.drop_lowest_priority_message with
        | none =>
          dsimp only
          exact henq _ (fun k => rfl)
        | some pr2 =>
          obtain ⟨dropped_mid, pq'⟩ := pr2
          try dsimp only
          cases hdm : s.messages.get? dropped_mid
          · try dsimp only
            refine henq _ (fun k => ?_)
            unfold pcs PNet.track_dropped_message
            refine pcs_list_set hsw _ ⟨?_, ?_⟩ k <;> rfl
          · try dsimp only
            refine henq _ (fun k => ?_)
            unfold pcs PNet.track_dropped_message
            refine pcs_list_set hsw _ ⟨?_, ?_⟩ k <;> rfl
      · rw [if_neg hpr]
        try dsimp only
        unfold pcs PNet.track_dropped_message
        refine pcs_list_set hsw _ ⟨?_, ?_⟩ j <;> rfl
  · rw [if_neg hfull]
    exact henq _ (fun k => rfl)


/-- Python int() truncation agrees with the floor on nonnegative
rationals. -/
theorem pyInt_eq_floor {q : ℚ} (h : 0 ≤ q) : pyInt q = ⌊q⌋ := by
simp [pyInt, h]

/-- The switch record produced by _preempt_current_transmission: the
paused entry is appended, the statistics are bumped and the transmission
state is cleared. -/
theorem preempt_get (s : PNet) (i : ℕ) (now : ℚ) {sw : PSwitch}
    {tr : CurrentTransmission} {message : Message} {link : Link}
    (hsw : s.switches.get? i = some sw)
    (hct : sw.current_transmission = some tr)
    (hmsg : s.messages.get? tr.msg_id = some message)
    (hlink : s.links.get? tr.link = some link) :
    (PSwitch.preempt_current_transmission s i now).switches.get? i
      = some { sw with
          paused_transmissions := sw.paused_transmissions ++
            [{ msg_id := tr.msg_id, output_port := tr.output_port, link := tr.link,
               bytes_transmitted := min (pyInt ((now - tr.start_time) * (link.bandwidth_bps / 8))) ((message.size_bytes : ℤ)),
               bytes_remaining := (message.size_bytes : ℤ) - min (pyInt ((now - tr.start_time) * (link.bandwidth_bps / 8))) ((message.size_bytes : ℤ)),
               paused_at := now }],
          preemptions_count := sw.preemptions_count + 1,
          preemptions_by_priority := assocSet sw.preemptions_by_priority message.priority (assocGetD sw.preemptions_by_priority message.priority 0 + 1),
          current_transmission := none,
          is_transmitting := false } := by
have hlt : i < s.switches.length := (List.get?_eq_some.1 hsw).1
unfold PSwitch.preempt_current_transmission
rw [hsw]
dsimp only
rw [hct]
dsimp only
rw [hmsg, hlink]
dsimp only
cases hce : tr.completion_event with
| some e => exact e.elim
| none =>
  cases hse : tr.slot_event with
  | some e => exact e.elim
  | none =>
    unfold PNet.cancel_if_present
    dsimp only
    rw [get?_set_self _ hlt]


/-- C6: for every preemption, the paused entry saves
bytes_transmitted = min(message.size_bytes, floor(elapsed * bandwidth_bps / 8)),
bytes_transmitted + bytes_remaining = message.size_bytes exactly, and the
link's busy_until is reset to the preemption time. -/
theorem C6_preemption_byte_accounting (s : PNet) (i : ℕ) (now : ℚ)
    (sw : PSwitch) (tr : CurrentTransmission) (message : Message) (link : Link)
    (hsw : s.switches.get? i = some sw)
    (hct : sw.current_transmission = some tr)
    (hmsg : s.messages.get? tr.msg_id = some message)
    (hlink : s.links.get? tr.link = some link)
    (hbw : 0 ≤ link.bandwidth_bps)
    (hstart : tr.start_time ≤ now) :
    (((PSwitch.preempt_current_transmission s i now).switches.get? i).map
        PSwitch.paused_transmissions
      = some (sw.paused_transmissions ++
          [⟨tr.msg_id, tr.output_port, tr.link,
            min ((message.size_bytes : ℤ)) ⌊(now - tr.start_time) * (link.bandwidth_bps / 8)⌋,
            (message.size_bytes : ℤ)
              - min ((message.size_bytes : ℤ)) ⌊(now - tr.start_time) * (link.bandwidth_bps / 8)⌋,
            now⟩])) ∧
    ((min ((message.size_bytes : ℤ)) ⌊(now - tr.start_time) * (link.bandwidth_bps / 8)⌋)
        + ((message.size_bytes : ℤ)
            - min ((message.size_bytes : ℤ)) ⌊(now - tr.start_time) * (link.bandwidth_bps / 8)⌋)
      = (message.size_bytes : ℤ)) ∧
    (((PSwitch.preempt_current_transmission s i now).links.get? tr.link).map Link.busy_until
      = some now) := by
have hlt : i < s.switches.length := (List.get?_eq_some.1 hsw).1
have hltl : tr.link < s.links.length := (List.get?_eq_some.1 hlink).1
have hx : 0 ≤ (now - tr.start_time) * (link.bandwidth_bps / 8) :=
  mul_nonneg (sub_nonneg.2 hstart) (div_nonneg hbw (by norm_num))
refine ⟨?_, by ring, ?_⟩
· unfold PSwitch.preempt_current_transmission
  rw [hsw]
  dsimp only
  rw [hct]
  dsimp only
  rw [hmsg, hlink]
  dsimp only
  cases hce : tr.completion_event with
  | some e => exact e.elim
  | none =>
    cases hse : tr.slot_event with
    | some e => exact e.elim
    | none =>
      unfold PNet.cancel_if_present
      dsimp only
      rw [get?_set_self _ hlt]
      try dsimp only
      rw [pyInt_eq_floor hx, min_comm]
      rfl
· unfold PSwitch.preempt_current_transmission
  rw [hsw]
  dsimp only
  rw [hct]
  dsimp only
  rw [hmsg, hlink]
  dsimp only
  cases hce : tr.completion_event with
  | some e => exact e.elim
  | none =>
    cases hse : tr.slot_event with
    | some e => exact e.elim
    | none =>
      unfold PNet.cancel_if_present
      dsimp only
      rw [get?_set_self _ hltl]
      rfl


theorem C6_preemption_byte_accounting_witness :
    (((PSwitch.preempt_current_transmission pnetC5 0 1).switches.get? 0).map
        PSwitch.paused_transmissions
      = some (pswC5.paused_transmissions ++
          [⟨trC5.msg_id, trC5.output_port, trC5.link,
            min ((mC5cur.size_bytes : ℤ)) ⌊(1 - trC5.start_time) * (linkC5.bandwidth_bps / 8)⌋,
            (mC5cur.size_bytes : ℤ)
              - min ((mC5cur.size_bytes : ℤ)) ⌊(1 - trC5.start_time) * (linkC5.bandwidth_bps / 8)⌋,
            1⟩])) ∧
    ((min ((mC5cur.size_bytes : ℤ)) ⌊(1 - trC5.start_time) * (linkC5.bandwidth_bps / 8)⌋)
        + ((mC5cur.size_bytes : ℤ)
            - min ((mC5cur.size_bytes : ℤ)) ⌊(1 - trC5.start_time) * (linkC5.bandwidth_bps / 8)⌋)
      = (mC5cur.size_bytes : ℤ)) ∧
    (((PSwitch.preempt_current_transmission pnetC5 0 1).links.get? trC5.link).map
        Link.busy_until
      = some 1) := by
exact C6_preemption_byte_accounting pnetC5 0 1 pswC5 trC5 mC5cur linkC5 rfl rfl rfl rfl
  (by with_unfolding_all decide) (by with_unfolding_all decide)

/-- The preemptions_count and last_preemption_time of a switch after the
preemption step of receive_message: the counter is bumped and the stamp is
set to the arrival time. -/
theorem preempt_and_stamp_pcs (s : PNet) (i : ℕ) (now : ℚ) {sw : PSwitch}
    {tr : CurrentTransmission} {message : Message} {link : Link}
    (hsw : s.switches.get? i = some sw)
    (hct : sw.current_transmission = some tr)
    (hmsg : s.messages.get? tr.msg_id = some message)
    (hlink : s.links.get? tr.link = some link) :
    pcs (PSwitch.preempt_and_stamp s i now) i
      = some (sw.preemptions_count + 1, now) := by
have hg := preempt_get s i now hsw hct hmsg hlink
have hlt2 : i < (PSwitch.preempt_current_transmission s i now).switches.length :=
  (List.get?_eq_some.1 hg).1
unfold PSwitch.preempt_and_stamp
try dsimp only
rw [hg]
try dsimp only
unfold pcs
try dsimp only
rw [get?_set_self _ hlt2]
rfl

/-- C5: a preemption-enabled switch with a transmission in progress
preempts on receive_message exactly when the arriving priority exceeds the
in-flight priority by at least 2 and the time since last_preemption_time is
at least min_preemption_interval; on preemption last_preemption_time is set
to the arrival time, otherwise the statistics are unchanged. -/
theorem C5_preemption_trigger_iff (s : PNet) (i mid : ℕ) (now : ℚ)
    (sw : PSwitch) (message : Message) (tr : CurrentTransmission)
    (current_msg : Message) (link : Link) (output_port : String)
    (hsw : s.switches.get? i = some sw)
    (hmsg : s.messages.get? mid = some message)
    (hfw : List.lookup message.dst_node sw.forwarding_table = some output_port)
    (hen : sw.preemption_enabled = true)
    (hct : sw.current_transmission = some tr)
    (hcm : s.messages.get? tr.msg_id = some current_msg)
    (hlink : s.links.get? tr.link = some link) :
    (pcs (PSwitch.receive_message s i mid now) i
        = some (sw.preemptions_count + 1, now)
      ↔ ((message.priority : ℤ) - (current_msg.priority : ℤ) ≥ 2 ∧
          now - sw.last_preemption_time ≥ sw.min_preemption_interval)) ∧
    (¬ ((message.priority : ℤ) - (current_msg.priority : ℤ) ≥ 2 ∧
          now - sw.last_preemption_time ≥ sw.min_preemption_interval) →
      pcs (PSwitch.receive_message s i mid now) i
        = some (sw.preemptions_count, sw.last_preemption_time)) := by
have hlt : i < s.switches.length := (List.get?_eq_some.1 hsw).1
unfold PSwitch.receive_message
rw [hsw, hmsg]
dsimp only
rw [hfw]
dsimp only
rw [if_pos hen]
rw [hct]
dsimp only
rw [hcm]
dsimp only
by_cases hcnd : ((message.priority : ℤ) - (current_msg.priority : ℤ) ≥ 2 ∧
    now - sw.last_preemption_time ≥ sw.min_preemption_interval)
· rw [if_pos hcnd]
  rw [pcs_enqueue_phase]
  have hsw1 : ({ s with switches := s.switches.set i { sw with messages_received := sw.messages_received + 1 } } : PNet).switches.get? i = some { sw with messages_received := sw.messages_received + 1 } := get?_set_self _ hlt
  rw [hct] at hsw1
  rw [preempt_and_stamp_pcs _ i now hsw1 rfl hcm hlink]
  try dsimp only
  constructor
  · simp [hcnd]
  · intro hn
    exact absurd hcnd hn
· rw [if_neg hcnd]
  rw [pcs_enqueue_phase]
  unfold pcs
  dsimp only
  rw [get?_set_self _ hlt]
  constructor
  · constructor
    · intro he
      exfalso
      have := congrArg Prod.fst (Option.some.inj he)
      simp at this
    · intro hc
      exact absurd hc hcnd
  · intro _
    rfl


theorem C5_preemption_trigger_iff_witness :
    pcs (PSwitch.receive_message pnetC5 0 1 1) 0
      = some (pswC5.preemptions_count + 1, 1) := by
have h := C5_preemption_trigger_iff pnetC5 0 1 1 pswC5 mC5new trC5 mC5cur linkC5 "p"
  rfl rfl rfl rfl rfl rfl rfl
exact h.1.mpr ⟨by decide, by with_unfolding_all decide⟩

/-- C7: a message arriving at a basic Switch whose bounded queue is at
capacity: when its priority strictly exceeds the lowest priority present,
the newest lowest-priority queued message is dropped with reason
"Preempted by higher priority" and the arriving message is enqueued on the
reduced queue; otherwise the arriving message is dropped with reason
"Buffer overflow (tail drop)" and the queue is unchanged. -/
theorem C7_full_queue_capacity_policy (s : Net) (i mid : ℕ) (t : ℚ)
    (sw : Switch) (message : Message) (mqs lp lmid : ℕ) (lport : String)
    (output_port : String) (dm : Message)
    (hsw : s.switches.get? i = some sw)
    (hmsg : s.messages.get? mid = some message)
    (hfw : List.lookup message.dst_node sw.forwarding_table = some output_port)
    (hmq : sw.max_queue_size = some mqs)
    (hfull : sw.priority_queue.total_size ≥ mqs)
    (hlow : sw.priority_queue.get_lowest_priority_message = some (lp, lmid, lport))
    (hdm : s.messages.get? lmid = some dm)
    (htr : sw.is_transmitting = true) :
    (message.priority > lp →
      ((Switch.receive_message s i mid t).messages.get? lmid).map
          (fun m => (m.dropped, m.drop_reason))
        = some (true, "Preempted by higher priority") ∧
      (Switch.receive_message s i mid t).dropped_messages
        = s.dropped_messages ++ [lmid] ∧
      ((Switch.receive_message s i mid t).switches.get? i).map Switch.priority_queue
        = some (PriorityQueue.enqueue
            { queues := sw.priority_queue.queues.set lp
                (sw.priority_queue.queues.getD lp []).dropLast,
              total_size := sw.priority_queue.total_size - 1 }
            mid message.priority output_port)) ∧
    (¬ message.priority > lp →
      ((Switch.receive_message s i mid t).messages.get? mid).map
          (fun m => (m.dropped, m.drop_reason))
        = some (true, "Buffer overflow (tail drop)") ∧
      (Switch.receive_message s i mid t).dropped_messages
        = s.dropped_messages ++ [mid] ∧
      ((Switch.receive_message s i mid t).switches.get? i).map Switch.priority_queue
        = some sw.priority_queue) := by
have hlt : i < s.switches.length := (List.get?_eq_some.1 hsw).1
have hltm : mid < s.messages.length := (List.get?_eq_some.1 hmsg).1
have hltd : lmid < s.messages.length := (List.get?_eq_some.1 hdm).1
obtain ⟨hmem, hlast, hdrop, hempt⟩ :=
  getLowestAux_spec sw.priority_queue _ lp lmid lport hlow
constructor
· intro hgt
  unfold Switch.receive_message
  rw [hsw, hmsg]
  try dsimp only
  rw [hfw]
  try dsimp only
  rw [hmq]
  try dsimp only
  rw [if_pos hfull, hlow]
  try dsimp only
  rw [if_pos hgt]
  have hdrop' : sw.priority_queue.drop_lowest_priority_message
      = some (lmid, { queues := sw.priority_queue.queues.set lp
                        (sw.priority_queue.queues.getD lp []).dropLast,
                      total_size := sw.priority_queue.total_size - 1 }) := hdrop
  rw [hdrop']
  try dsimp only
  rw [hdm]
  try dsimp only
  unfold Network.track_dropped_message Switch.enqueue_and_forward
  try dsimp only
  rw [get?_set_self _ (by simpa using hlt)]
  try dsimp only
  rw [htr]
  rw [if_pos rfl]
  try dsimp only
  refine ⟨?_, rfl, ?_⟩
  · rw [get?_set_self _ hltd]
    rfl
  · rw [get?_set_self _ (by simpa using hlt)]
    rfl
· intro hngt
  unfold Switch.receive_message
  rw [hsw, hmsg]
  try dsimp only
  rw [hfw]
  try dsimp only
  rw [hmq]
  try dsimp only
  rw [if_pos hfull, hlow]
  try dsimp only
  rw [if_neg hngt]
  try dsimp only
  unfold Network.track_dropped_message
  try dsimp only
  refine ⟨?_, rfl, ?_⟩
  · rw [get?_set_self _ hltm]
    rfl
  · rw [get?_set_self _ (by simpa using hlt)]
    rfl

theorem C7_full_queue_capacity_policy_witness :
    ((Switch.receive_message netC7 0 1 2).messages.get? 0).map
        (fun m => (m.dropped, m.drop_reason))
      = some (true, "Preempted by higher priority") ∧
    (Switch.receive_message netC7 0 1 2).dropped_messages
      = netC7.dropped_messages ++ [0] := by
have h := C7_full_queue_capacity_policy netC7 0 1 2 swC7 mC7n 1 0 0 "p" "p" mC7q
  rfl rfl rfl rfl (by decide) (by decide) rfl rfl
exact ⟨(h.1 (by decide)).1, (h.1 (by decide)).2.1⟩

/-- C1: refuted as stated — Network.schedule_event has no return
statement, so the handles stored by _start_transmission and
_resume_paused_transmission are always None, the guarded cancellation in
_preempt_current_transmission never fires (Network defines no cancel_event
method at all), and the stale completion event of a preempted transmission
stays in the queue: in the concrete preempt-then-resume scenario two
completion events for message 0 are pending at once and dispatching both
delivers message 0 twice, not at most once. -/
theorem C1_stale_completion_double_delivery :
    (∀ (s : PNet) (t : ℚ) (a : PAction), (PNet.schedule_event s t a).2 = none) ∧
    (s2C1.event_queue.filter isCompletionOfMsg0).length = 2 ∧
    (PSwitch.complete_transmission
        (PSwitch.complete_transmission s2C1 0 0 "Dst" (81/1000))
        0 0 "Dst" (81/1000)).completed_messages = [0, 0] := by
refine ⟨fun s t a => rfl, ?_, ?_⟩ <;> with_unfolding_all decide

end PrioritySim
